import Mathlib

/-!
Verification development for the healthcare symptom-checker backend.

The repository is a Flask relay around an LLM provider.  This file gives a
shallow embedding of the backend's pure logic, translated from
`healthcare-backend/app.py` (the primary revision) and `app.py` (the legacy
revision):

* the symptom-text normalization and Redis seed-key derivation
  (`_normalize_symptoms`, `_redis_seed_key`, backed by a full SHA-256
  implementation standing for `hashlib.sha256` and an explicit UTF-8 encoder);
* the seeded-cache lookup `_try_get_seeded_result`;
* the candidate-list cleaner `_unique_nonempty_strings` and the Gemini
  404-fallback drivers `_post_gemini_with_retries`,
  `_post_gemini_try_models_with_base`, `_post_gemini_try_targets`;
* the Hugging Face resilience loop `_post_hf_with_resilience` (retries,
  rate-limit backoff with `retry-after` hints, model-loading polling), made
  observable by recording the outbound-call count and the slept delays, with
  wall-clock time modelled as an explicit rational clock;
* the response normalizers `_extract_hf_text`, `_parse_llm_json_output`,
  `_extract_gemini_text` and both `/analyze` request handlers.

External collaborators are oracles: the provider is a function from the
outbound-call index to a response, `json.loads` is a function
`String → Option JVal` (`none` models a raised `JSONDecodeError`), and the
Redis client is a fetch function that can fail.  Machine floats of the source
are modelled as rationals; Python `int()` truncation is explicit.
-/

namespace SymptomChecker

/-- JSON values, the shape of every request/response body in the backend. -/
inductive JVal where
  | null : JVal
  | bool : Bool → JVal
  | num : ℚ → JVal
  | str : String → JVal
  | arr : List JVal → JVal
  | obj : List (String × JVal) → JVal
deriving Repr

/-- Lookup of a key in a JSON object (Python `dict.get`); keys produced by the
modelled code are unique, so first-match lookup is faithful. -/
def objGet : List (String × JVal) → String → Option JVal
  | [], _ => none
  | (k, v) :: rest, key => if k = key then some v else objGet rest key

/-- Python truthiness on JSON values (`if not x`). -/
def jFalsy : JVal → Bool
  | .null => true
  | .bool b => !b
  | .num q => q == 0
  | .str s => s == ""
  | .arr l => l.isEmpty
  | .obj l => l.isEmpty

/-! ## Python string primitives

`str.strip`, `str.lower`, `str.split()` (whitespace mode) and `" ".join`,
modelled on `List Char`.  ASCII case-folding and the four common whitespace
characters stand in for Python's Unicode versions. -/

/-- Whitespace test used by `strip`/`split`. -/
def isWs (c : Char) : Bool := c.isWhitespace

/-- Python `str.strip()`: drop whitespace from both ends. -/
def stripChars (l : List Char) : List Char :=
  ((l.dropWhile isWs).reverse.dropWhile isWs).reverse

/-- Python `str.strip()` on `String`. -/
def pyStrip (s : String) : String := ⟨stripChars s.data⟩

/-- Helper for `splitRuns`: push a character onto the current (head) run. -/
def pushTok (c : Char) (acc : List (List Char)) : List (List Char) :=
  match acc with
  | [] => [[c]]
  | t :: ts => (c :: t) :: ts

/-- Cut a character list at whitespace into (possibly empty) runs. -/
def splitRuns (l : List Char) : List (List Char) :=
  l.foldr (fun c acc => if isWs c then [] :: acc else pushTok c acc) []

/-- Python `str.split()` with no separator: maximal nonempty runs of
non-whitespace characters. -/
def pyWords (l : List Char) : List (List Char) :=
  (splitRuns l).filter (fun t => ¬ t.isEmpty)

/-- Python `" ".join` on character runs. -/
def joinSp : List (List Char) → List Char
  | [] => []
  | [t] => t
  | t :: ts => t ++ ' ' :: joinSp ts

/-- Python `str.lower()` (ASCII model). -/
def lowerChars (l : List Char) : List Char := l.map Char.toLower

/-- `_normalize_symptoms` on characters:
`" ".join((text or "").strip().lower().split())`. -/
def normChars (l : List Char) : List Char :=
  joinSp (pyWords (lowerChars (stripChars l)))

/-- `_normalize_symptoms` from `healthcare-backend/app.py`. -/
def normalize_symptoms (s : String) : String := ⟨normChars s.data⟩

/-! ### Facts about the normalization -/

theorem char_toNat_ofNat_valid (n : Nat) (h : n < 55296) :
    (Char.ofNat n).toNat = n := by
  have hv : n.isValidChar := Or.inl h
  simp only [Char.ofNat, dif_pos hv, Char.ofNatAux, Char.toNat]
  simp [UInt32.toNat, BitVec.toNat_ofNatLt]

theorem toLower_idem (c : Char) :
    Char.toLower (Char.toLower c) = Char.toLower c := by
  unfold Char.toLower
  by_cases h : c.toNat ≥ 65 ∧ c.toNat ≤ 90
  · rw [if_pos h]
    have h2 : (Char.ofNat (c.toNat + 32)).toNat = c.toNat + 32 :=
      char_toNat_ofNat_valid _ (by omega)
    rw [if_neg (by omega)]
  · rw [if_neg h, if_neg h]

theorem toLower_space : Char.toLower ' ' = ' ' := by decide

theorem splitRuns_nil : splitRuns [] = [] := rfl

theorem splitRuns_cons (x : Char) (xs : List Char) :
    splitRuns (x :: xs) =
      if isWs x then [] :: splitRuns xs else pushTok x (splitRuns xs) := rfl

/-- Characters inside any run produced by `splitRuns` are non-whitespace. -/
theorem splitRuns_not_ws {l : List Char} :
    ∀ t ∈ splitRuns l, ∀ c ∈ t, isWs c = false := by
  induction l with
  | nil => intro t ht; simp [splitRuns_nil] at ht
  | cons x xs ih =>
    intro t ht c hc
    rw [splitRuns_cons] at ht
    by_cases hx : isWs x
    · rw [if_pos hx] at ht
      rcases List.mem_cons.mp ht with h | h
      · subst h; simp at hc
      · exact ih t h c hc
    · rw [if_neg hx] at ht
      rcases hrec : splitRuns xs with _ | ⟨t0, ts⟩
      · rw [hrec] at ht; simp [pushTok] at ht
        subst ht; simp at hc; subst hc
        simpa using hx
      · rw [hrec] at ht; simp only [pushTok] at ht
        rcases List.mem_cons.mp ht with h | h
        · subst h
          rcases List.mem_cons.mp hc with h' | h'
          · subst h'; simpa using hx
          · exact ih t0 (by rw [hrec]; exact List.mem_cons_self _ _) c h'
        · exact ih t (by rw [hrec]; exact List.mem_cons.mpr (Or.inr h)) c hc

/-- Characters inside any run produced by `splitRuns` come from the input. -/
theorem splitRuns_subset {l : List Char} :
    ∀ t ∈ splitRuns l, ∀ c ∈ t, c ∈ l := by
  induction l with
  | nil => intro t ht; simp [splitRuns_nil] at ht
  | cons x xs ih =>
    intro t ht c hc
    rw [splitRuns_cons] at ht
    by_cases hx : isWs x
    · rw [if_pos hx] at ht
      rcases List.mem_cons.mp ht with h | h
      · subst h; simp at hc
      · exact List.mem_cons.mpr (Or.inr (ih t h c hc))
    · rw [if_neg hx] at ht
      rcases hrec : splitRuns xs with _ | ⟨t0, ts⟩
      · rw [hrec] at ht; simp [pushTok] at ht
        subst ht; simp at hc; subst hc
        exact List.mem_cons_self _ _
      · rw [hrec] at ht; simp only [pushTok] at ht
        rcases List.mem_cons.mp ht with h | h
        · subst h
          rcases List.mem_cons.mp hc with h' | h'
          · subst h'; exact List.mem_cons_self _ _
          · exact List.mem_cons.mpr
              (Or.inr (ih t0 (by rw [hrec]; exact List.mem_cons_self _ _) c h'))
        · exact List.mem_cons.mpr
            (Or.inr (ih t (by rw [hrec]; exact List.mem_cons.mpr (Or.inr h)) c hc))

theorem pyWords_not_ws {l : List Char} :
    ∀ t ∈ pyWords l, ∀ c ∈ t, isWs c = false := by
  intro t ht
  exact splitRuns_not_ws t (List.mem_of_mem_filter ht)

theorem pyWords_ne_nil {l : List Char} : ∀ t ∈ pyWords l, t ≠ [] := by
  intro t ht
  have := List.of_mem_filter ht
  simpa [List.isEmpty_iff] using this

theorem pyWords_subset {l : List Char} :
    ∀ t ∈ pyWords l, ∀ c ∈ t, c ∈ l := by
  intro t ht
  exact splitRuns_subset t (List.mem_of_mem_filter ht)

theorem joinSp_cons_cons (t t2 : List Char) (ts : List (List Char)) :
    joinSp (t :: t2 :: ts) = t ++ ' ' :: joinSp (t2 :: ts) := rfl

/-- Folding the run-splitting step over a whitespace-free block prepends the
block onto the current head run. -/
theorem foldr_pushTok (t : List Char) (h : List Char) (A : List (List Char))
    (hws : ∀ c ∈ t, isWs c = false) :
    List.foldr (fun c acc => if isWs c then [] :: acc else pushTok c acc)
      (h :: A) t = (t ++ h) :: A := by
  induction t with
  | nil => rfl
  | cons x xs ih =>
    have hx : isWs x = false := hws x (List.mem_cons_self _ _)
    have ih' := ih (fun c hc => hws c (List.mem_cons.mpr (Or.inr hc)))
    rw [List.foldr_cons, ih']
    simp [hx, pushTok]

/-- Splitting a whitespace-free block followed by a space yields the block as
one run. -/
theorem splitRuns_block_space (t rest : List Char)
    (hws : ∀ c ∈ t, isWs c = false) :
    splitRuns (t ++ ' ' :: rest) = t :: splitRuns rest := by
  have h1 : splitRuns (t ++ ' ' :: rest) =
      List.foldr (fun c acc => if isWs c then [] :: acc else pushTok c acc)
        (splitRuns (' ' :: rest)) t := by
    simp [splitRuns, List.foldr_append]
  have h2 : splitRuns (' ' :: rest) = [] :: splitRuns rest := by
    rw [splitRuns_cons, if_pos (by decide)]
  rw [h1, h2, foldr_pushTok t [] _ hws, List.append_nil]

/-- A nonempty whitespace-free block splits into exactly itself. -/
theorem splitRuns_no_ws (t : List Char) (hne : t ≠ [])
    (hws : ∀ c ∈ t, isWs c = false) : splitRuns t = [t] := by
  cases t with
  | nil => exact absurd rfl hne
  | cons x xs =>
    have hx : isWs x = false := hws x (List.mem_cons_self _ _)
    rw [splitRuns_cons, if_neg (by simp [hx])]
    cases xs with
    | nil => rfl
    | cons y ys =>
      have : splitRuns (y :: ys) = [y :: ys] := by
        refine splitRuns_no_ws _ (by simp) ?_
        intro c hc; exact hws c (List.mem_cons.mpr (Or.inr hc))
      rw [this]; rfl

/-- Re-splitting a space-joined list of nonempty whitespace-free runs
recovers the runs. -/
theorem pyWords_joinSp (T : List (List Char))
    (hne : ∀ t ∈ T, t ≠ []) (hws : ∀ t ∈ T, ∀ c ∈ t, isWs c = false) :
    pyWords (joinSp T) = T := by
  match T with
  | [] => rfl
  | [t] =>
    have h1 : joinSp [t] = t := rfl
    rw [h1]
    unfold pyWords
    rw [splitRuns_no_ws t (hne t (by simp)) (hws t (by simp))]
    simp [List.isEmpty_iff, hne t (by simp)]
  | t :: t2 :: ts =>
    rw [joinSp_cons_cons]
    unfold pyWords
    rw [splitRuns_block_space t _ (hws t (by simp))]
    have hrec : pyWords (joinSp (t2 :: ts)) = t2 :: ts :=
      pyWords_joinSp (t2 :: ts)
        (fun u hu => hne u (List.mem_cons.mpr (Or.inr hu)))
        (fun u hu => hws u (List.mem_cons.mpr (Or.inr hu)))
    unfold pyWords at hrec
    rw [List.filter_cons, if_pos (by simp [List.isEmpty_iff, hne t (by simp)]),
      hrec]

theorem joinSp_append_single (A : List (List Char)) (x : List Char)
    (hA : A ≠ []) : joinSp (A ++ [x]) = joinSp A ++ ' ' :: x := by
  match A with
  | [] => exact absurd rfl hA
  | [t] => rfl
  | t :: t2 :: ts =>
    have : joinSp ((t2 :: ts) ++ [x]) = joinSp (t2 :: ts) ++ ' ' :: x :=
      joinSp_append_single (t2 :: ts) x (by simp)
    simp only [List.cons_append, joinSp_cons_cons]
    rw [show (t2 :: ts) ++ [x] = t2 :: (ts ++ [x]) from rfl] at this
    rw [this]
    simp

theorem joinSp_reverse (T : List (List Char)) :
    (joinSp T).reverse = joinSp (T.reverse.map List.reverse) := by
  match T with
  | [] => rfl
  | [t] => rfl
  | t :: t2 :: ts =>
    rw [joinSp_cons_cons]
    have ih := joinSp_reverse (t2 :: ts)
    have h1 : (t ++ ' ' :: joinSp (t2 :: ts)).reverse
        = (joinSp (t2 :: ts)).reverse ++ ' ' :: t.reverse := by simp
    have h2 : (t :: t2 :: ts).reverse.map List.reverse
        = ((t2 :: ts).reverse.map List.reverse) ++ [t.reverse] := by simp
    rw [h1, ih, h2, joinSp_append_single _ _ (by simp)]

theorem dropWhile_eq_self_of_head (l : List Char)
    (h : ∀ c, l.head? = some c → isWs c = false) :
    l.dropWhile isWs = l := by
  cases l with
  | nil => rfl
  | cons x xs =>
    rw [List.dropWhile_cons, if_neg (by simp [h x rfl])]

theorem joinSp_head (t : List Char) (ts : List (List Char)) (hne : t ≠ []) :
    (joinSp (t :: ts)).head? = t.head? := by
  cases ts with
  | nil => rfl
  | cons t2 ts' =>
    rw [joinSp_cons_cons]
    cases t with
    | nil => exact absurd rfl hne
    | cons x xs => rfl

/-- Stripping a space-joined list of nonempty whitespace-free runs is the
identity. -/
theorem stripChars_joinSp (T : List (List Char))
    (hne : ∀ t ∈ T, t ≠ []) (hws : ∀ t ∈ T, ∀ c ∈ t, isWs c = false) :
    stripChars (joinSp T) = joinSp T := by
  have hhead : ∀ (U : List (List Char)), (∀ t ∈ U, t ≠ []) →
      (∀ t ∈ U, ∀ c ∈ t, isWs c = false) →
      (joinSp U).dropWhile isWs = joinSp U := by
    intro U hUne hUws
    cases U with
    | nil => rfl
    | cons t ts =>
      have htne : t ≠ [] := hUne t (by simp)
      refine dropWhile_eq_self_of_head _ ?_
      intro c hc
      rw [joinSp_head t ts htne] at hc
      cases t with
      | nil => exact absurd rfl htne
      | cons x xs =>
        have hcx : c = x := by simpa using hc.symm
        rw [hcx]
        exact hUws (x :: xs) (by simp) x (by simp)
  unfold stripChars
  rw [hhead T hne hws, joinSp_reverse]
  rw [hhead (T.reverse.map List.reverse)
    (by intro t ht
        simp only [List.mem_map, List.mem_reverse] at ht
        obtain ⟨u, hu, rfl⟩ := ht
        simp [hne u hu])
    (by intro t ht c hc
        simp only [List.mem_map, List.mem_reverse] at ht
        obtain ⟨u, hu, rfl⟩ := ht
        exact hws u hu c (List.mem_reverse.mp hc))]
  rw [← joinSp_reverse, List.reverse_reverse]

theorem map_joinSp (f : Char → Char) (hf : f ' ' = ' ') (T : List (List Char)) :
    (joinSp T).map f = joinSp (T.map (List.map f)) := by
  match T with
  | [] => rfl
  | [t] => rfl
  | t :: t2 :: ts =>
    have ih := map_joinSp f hf (t2 :: ts)
    rw [joinSp_cons_cons]
    simp only [List.map_append, List.map_cons, hf, List.map_map]
    rw [ih]
    rfl

theorem map_eq_self_of_fixed {α : Type} {f : α → α} {l : List α}
    (h : ∀ c ∈ l, f c = c) : l.map f = l := by
  induction l with
  | nil => rfl
  | cons x xs ih =>
    rw [List.map_cons, h x (by simp), ih (fun c hc => h c (by simp [hc]))]

/-- Lower-casing a space-joined list of runs whose characters are already
lower-case fixed points is the identity. -/
theorem lowerChars_joinSp (T : List (List Char))
    (hlow : ∀ t ∈ T, ∀ c ∈ t, Char.toLower c = c) :
    lowerChars (joinSp T) = joinSp T := by
  unfold lowerChars
  rw [map_joinSp Char.toLower toLower_space T]
  congr 1
  exact map_eq_self_of_fixed (fun t ht => map_eq_self_of_fixed (hlow t ht))

/-- The core idempotence: `normChars` is idempotent on character lists. -/
theorem normChars_idem (l : List Char) : normChars (normChars l) = normChars l := by
  set T := pyWords (lowerChars (stripChars l)) with hT
  have hne : ∀ t ∈ T, t ≠ [] := pyWords_ne_nil
  have hws : ∀ t ∈ T, ∀ c ∈ t, isWs c = false := pyWords_not_ws
  have hlow : ∀ t ∈ T, ∀ c ∈ t, Char.toLower c = c := by
    intro t ht c hc
    have hmem : c ∈ lowerChars (stripChars l) := pyWords_subset t ht c hc
    simp only [lowerChars, List.mem_map] at hmem
    obtain ⟨c0, _, rfl⟩ := hmem
    exact toLower_idem c0
  show normChars (joinSp T) = joinSp T
  unfold normChars
  rw [stripChars_joinSp T hne hws, lowerChars_joinSp T hlow,
    pyWords_joinSp T hne hws]

/-- Idempotence at the `String` level. -/
theorem normalize_symptoms_idem (s : String) :
    normalize_symptoms (normalize_symptoms s) = normalize_symptoms s := by
  unfold normalize_symptoms
  exact congrArg String.mk (normChars_idem s.data)

/-! ## UTF-8 and SHA-256

`normalized.encode("utf-8")` and `hashlib.sha256(...).hexdigest()` from
`_redis_seed_key`.  Bytes and 32-bit words are naturals reduced explicitly
modulo `2 ^ 8` / `2 ^ 32`. -/

/-- UTF-8 encoding of one code point as a byte list. -/
def utf8Bytes (n : Nat) : List Nat :=
  if n < 128 then [n]
  else if n < 2048 then [192 + n / 64, 128 + n % 64]
  else if n < 65536 then [224 + n / 4096, 128 + n / 64 % 64, 128 + n % 64]
  else [240 + n / 262144, 128 + n / 4096 % 64, 128 + n / 64 % 64, 128 + n % 64]

/-- Python `s.encode("utf-8")` as a byte list. -/
def utf8Encode (s : String) : List Nat :=
  (s.data.map (fun c => utf8Bytes c.toNat)).flatten

/-- Reduction modulo `2 ^ 32`. -/
def w32 (n : Nat) : Nat := n % 4294967296

/-- Right rotation of a 32-bit word, expressed arithmetically. -/
def rotr (k x : Nat) : Nat := x / 2 ^ k + x % 2 ^ k * 2 ^ (32 - k)

/-- Bitwise complement within 32 bits. -/
def not32 (x : Nat) : Nat := x ^^^ 4294967295

def shaCh (x y z : Nat) : Nat := (x &&& y) ^^^ (not32 x &&& z)

def shaMaj (x y z : Nat) : Nat := (x &&& y) ^^^ (x &&& z) ^^^ (y &&& z)

def bsig0 (x : Nat) : Nat := rotr 2 x ^^^ rotr 13 x ^^^ rotr 22 x

def bsig1 (x : Nat) : Nat := rotr 6 x ^^^ rotr 11 x ^^^ rotr 25 x

def ssig0 (x : Nat) : Nat := rotr 7 x ^^^ rotr 18 x ^^^ x / 2 ^ 3

def ssig1 (x : Nat) : Nat := rotr 17 x ^^^ rotr 19 x ^^^ x / 2 ^ 10

/-- SHA-256 round constants. -/
def shaK : List Nat :=
  [0x428a2f98, 0x71374491, 0xb5c0fbcf, 0xe9b5dba5, 0x3956c25b, 0x59f111f1] ++
  [0x923f82a4, 0xab1c5ed5, 0xd807aa98, 0x12835b01, 0x243185be, 0x550c7dc3] ++
  [0x72be5d74, 0x80deb1fe, 0x9bdc06a7, 0xc19bf174, 0xe49b69c1, 0xefbe4786] ++
  [0x0fc19dc6, 0x240ca1cc, 0x2de92c6f, 0x4a7484aa, 0x5cb0a9dc, 0x76f988da] ++
  [0x983e5152, 0xa831c66d, 0xb00327c8, 0xbf597fc7, 0xc6e00bf3, 0xd5a79147] ++
  [0x06ca6351, 0x14292967, 0x27b70a85, 0x2e1b2138, 0x4d2c6dfc, 0x53380d13] ++
  [0x650a7354, 0x766a0abb, 0x81c2c92e, 0x92722c85, 0xa2bfe8a1, 0xa81a664b] ++
  [0xc24b8b70, 0xc76c51a3, 0xd192e819, 0xd6990624, 0xf40e3585, 0x106aa070] ++
  [0x19a4c116, 0x1e376c08, 0x2748774c, 0x34b0bcb5, 0x391c0cb3, 0x4ed8aa4a] ++
  [0x5b9cca4f, 0x682e6ff3, 0x748f82ee, 0x78a5636f, 0x84c87814, 0x8cc70208] ++
  [0x90befffa, 0xa4506ceb, 0xbef9a3f7, 0xc67178f2]

/-- SHA-256 initial hash state. -/
def shaH0 : List Nat :=
  [0x6a09e667, 0xbb67ae85, 0x3c6ef372, 0xa54ff53a,
   0x510e527f, 0x9b05688c, 0x1f83d9ab, 0x5be0cd19]

/-- Big-endian 8-byte encoding of the bit length. -/
def lenBytes (n : Nat) : List Nat :=
  [n / 2 ^ 56 % 256, n / 2 ^ 48 % 256, n / 2 ^ 40 % 256, n / 2 ^ 32 % 256,
   n / 2 ^ 24 % 256, n / 2 ^ 16 % 256, n / 2 ^ 8 % 256, n % 256]

/-- SHA-256 message padding. -/
def sha256Pad (msg : List Nat) : List Nat :=
  let len := msg.length
  let padZeros := (55 + 64 - len % 64) % 64
  msg ++ 0x80 :: List.replicate padZeros 0 ++ lenBytes (8 * len)

/-- Split the padded message into 64-byte blocks. -/
def toBlocks : List Nat → List (List Nat)
  | [] => []
  | x :: xs => (x :: xs).take 64 :: toBlocks ((x :: xs).drop 64)
termination_by l => l.length
decreasing_by simp; omega

/-- Assemble big-endian 32-bit words from bytes. -/
def bytesToWords : List Nat → List Nat
  | a :: b :: c :: d :: rest =>
    (((a * 256 + b) * 256 + c) * 256 + d) :: bytesToWords rest
  | _ => []

/-- Extend the 16-word message schedule by `k` further words. -/
def extendSched (ws : List Nat) : Nat → List Nat
  | 0 => ws
  | k + 1 =>
    let cur := extendSched ws k
    let n := cur.length
    cur ++ [w32 (ssig1 (cur.getD (n - 2) 0) + cur.getD (n - 7) 0 +
      ssig0 (cur.getD (n - 15) 0) + cur.getD (n - 16) 0)]

/-- One SHA-256 compression round on the 8-word working state. -/
def compressStep (s : List Nat) (kw : Nat × Nat) : List Nat :=
  match s with
  | [a, b, c, d, e, f, g, h] =>
    let t1 := w32 (h + bsig1 e + shaCh e f g + kw.1 + kw.2)
    let t2 := w32 (bsig0 a + shaMaj a b c)
    [w32 (t1 + t2), a, b, c, w32 (d + t1), e, f, g]
  | _ => s

/-- Compress one 64-byte block into the running hash state. -/
def compressBlock (H : List Nat) (block : List Nat) : List Nat :=
  let ws := extendSched (bytesToWords block) 48
  let s := (shaK.zip ws).foldl compressStep H
  List.zipWith (fun x y => w32 (x + y)) H s

/-- SHA-256 of a byte list, as eight 32-bit words. -/
def sha256Words (msg : List Nat) : List Nat :=
  (toBlocks (sha256Pad msg)).foldl compressBlock shaH0

/-- Lower-case hex digit. -/
def hexDigit (n : Nat) : Char :=
  if n < 10 then Char.ofNat (48 + n) else Char.ofNat (87 + n)

/-- Eight hex characters of one 32-bit word. -/
def wordHex (w : Nat) : List Char :=
  [hexDigit (w / 2 ^ 28 % 16), hexDigit (w / 2 ^ 24 % 16),
   hexDigit (w / 2 ^ 20 % 16), hexDigit (w / 2 ^ 16 % 16),
   hexDigit (w / 2 ^ 12 % 16), hexDigit (w / 2 ^ 8 % 16),
   hexDigit (w / 2 ^ 4 % 16), hexDigit (w % 16)]

/-- `hashlib.sha256(bytes).hexdigest()`. -/
def sha256Hex (msg : List Nat) : String :=
  ⟨((sha256Words msg).map wordHex).flatten⟩

/-- `_redis_seed_key` from `healthcare-backend/app.py`:
`f"{prefix}:{sha256(normalized.encode()).hexdigest()}"`. -/
def redis_seed_key (pre : String) (symptoms : String) : String :=
  pre ++ ":" ++ sha256Hex (utf8Encode (normalize_symptoms symptoms))

/-! ## Candidate-list cleaning and the Gemini 404 fallback drivers -/

/-- Loop body of `_unique_nonempty_strings`, with the `seen` set made
explicit. -/
def unique_nonempty_go (seen : List String) : List String → List String
  | [] => []
  | v :: rest =>
    let cleaned := pyStrip v
    if cleaned ≠ "" ∧ cleaned ∉ seen then
      cleaned :: unique_nonempty_go (cleaned :: seen) rest
    else unique_nonempty_go seen rest

/-- `_unique_nonempty_strings` from `healthcare-backend/app.py`. -/
def unique_nonempty_strings (values : List String) : List String :=
  unique_nonempty_go [] values

/-- Modelled from the claim's description, for comparison with
`_unique_nonempty_strings`: remove duplicates keeping only the first
occurrence, preserving first-occurrence order. -/
def dedupFirstSpec : List String → List String
  | [] => []
  | x :: xs => x :: dedupFirstSpec (xs.filter (fun y => y ≠ x))
termination_by l => l.length
decreasing_by
  simp only [List.length_cons]
  exact Nat.lt_succ_of_le (List.length_filter_le _ _)

theorem dedupFirstSpec_subset : ∀ (l : List String), ∀ y ∈ dedupFirstSpec l, y ∈ l
  | [] => by intro y hy; simp [dedupFirstSpec] at hy
  | x :: xs => by
    intro y hy
    rw [dedupFirstSpec] at hy
    rcases List.mem_cons.mp hy with h | h
    · simp [h]
    · have := dedupFirstSpec_subset (xs.filter (fun y => y ≠ x)) y h
      exact List.mem_cons.mpr (Or.inr (List.mem_of_mem_filter this))
termination_by l => l.length
decreasing_by
  simp only [List.length_cons]
  exact Nat.lt_succ_of_le (List.length_filter_le _ _)

theorem dedupFirstSpec_nodup : ∀ (l : List String), (dedupFirstSpec l).Nodup
  | [] => by simp [dedupFirstSpec]
  | x :: xs => by
    rw [dedupFirstSpec]
    refine List.nodup_cons.mpr ⟨?_, dedupFirstSpec_nodup _⟩
    intro hmem
    have := dedupFirstSpec_subset _ x hmem
    simp at this
termination_by l => l.length
decreasing_by
  simp only [List.length_cons]
  exact Nat.lt_succ_of_le (List.length_filter_le _ _)

theorem unique_nonempty_go_cons (seen : List String) (v : String)
    (rest : List String) :
    unique_nonempty_go seen (v :: rest) =
      if pyStrip v ≠ "" ∧ pyStrip v ∉ seen then
        pyStrip v :: unique_nonempty_go (pyStrip v :: seen) rest
      else unique_nonempty_go seen rest := rfl

/-- The `seen`-threaded loop equals the spec-side first-occurrence dedup of
the stripped nonblank entries not yet seen. -/
theorem unique_nonempty_go_eq (l : List String) : ∀ (seen : List String),
    unique_nonempty_go seen l =
      dedupFirstSpec (((l.map pyStrip).filter (fun s => s ≠ "")).filter
        (fun s => s ∉ seen)) := by
  induction l with
  | nil => intro seen; simp [unique_nonempty_go, dedupFirstSpec]
  | cons v rest ih =>
    intro seen
    rw [unique_nonempty_go_cons]
    simp only [List.map_cons, List.filter_cons]
    by_cases h1 : pyStrip v = ""
    · rw [if_neg (show ¬(pyStrip v ≠ "" ∧ pyStrip v ∉ seen) by simp [h1]),
        if_neg (show ¬((fun s => decide (s ≠ "")) (pyStrip v) = true) by
          simp [h1])]
      exact ih seen
    · rw [if_pos (show (fun s => decide (s ≠ "")) (pyStrip v) = true by
        simp [h1]), List.filter_cons]
      by_cases h2 : pyStrip v ∈ seen
      · rw [if_neg (show ¬(pyStrip v ≠ "" ∧ pyStrip v ∉ seen) by simp [h1, h2]),
          if_neg (show ¬((fun s => decide (s ∉ seen)) (pyStrip v) = true) by
            simp [h2])]
        exact ih seen
      · rw [if_pos (show pyStrip v ≠ "" ∧ pyStrip v ∉ seen from ⟨h1, h2⟩),
          if_pos (show (fun s => decide (s ∉ seen)) (pyStrip v) = true by
            simp [h2]), dedupFirstSpec]
        congr 1
        rw [ih (pyStrip v :: seen), List.filter_filter, List.filter_filter,
          List.filter_filter]
        congr 1
        apply List.filter_congr
        intro x _
        by_cases hx1 : x ∈ seen <;> by_cases hx2 : x = pyStrip v <;>
          by_cases hx3 : x = "" <;> simp [hx1, hx2, hx3]

/-- `_unique_nonempty_strings` implements strip-filter-dedup (first
occurrence kept, order preserved). -/
theorem unique_nonempty_strings_eq (l : List String) :
    unique_nonempty_strings l =
      dedupFirstSpec ((l.map pyStrip).filter (fun s => s ≠ "")) := by
  unfold unique_nonempty_strings
  rw [unique_nonempty_go_eq l []]
  congr 1
  simp

theorem unique_nonempty_strings_nodup (l : List String) :
    (unique_nonempty_strings l).Nodup := by
  rw [unique_nonempty_strings_eq]
  exact dedupFirstSpec_nodup _

/-- Gemini provider response: HTTP status and parsed JSON body (`none` models
a `response.json()` that would raise). -/
structure GResp where
  status : Nat
  jsonBody : Option JVal

/-- Provider oracle standing for `_post_gemini`: outbound-call index and the
`model` / `base_url` arguments (as passed, `none` = Python `None`) to the
response. -/
abbrev GOracle := Nat → Option String → Option String → GResp

/-- Statuses retried by `_post_gemini_with_retries` (`429, 500, 502, 503,
504`). -/
def gTransient (s : Nat) : Bool :=
  s == 429 || s == 500 || s == 502 || s == 503 || s == 504

/-- Argument pairs of the outbound calls, in call order. -/
abbrev GTrace := List (Option String × Option String)

/-- `_post_gemini_with_retries`: at most two fixed-backoff re-posts on
transient statuses, then the last response.  Also returns the next call index
and the calls made. -/
def post_gemini_with_retries (g : GOracle) (k : Nat)
    (model baseUrl : Option String) : GResp × Nat × GTrace :=
  let r0 := g k model baseUrl
  if gTransient r0.status then
    let r1 := g (k + 1) model baseUrl
    if gTransient r1.status then
      let r2 := g (k + 2) model baseUrl
      (r2, k + 3, [(model, baseUrl), (model, baseUrl), (model, baseUrl)])
    else (r1, k + 2, [(model, baseUrl), (model, baseUrl)])
  else (r0, k + 1, [(model, baseUrl)])

/-- Process environment as the handlers read it.  The numeric fields hold the
values `_env_int` / `_env_float` would produce (parsed value or default);
clamping happens inside `_post_hf_with_resilience` as in the source.  String
option fields are `None` or the stripped value, per `_env_str`. -/
structure Env where
  returnFallbackOnError : Bool
  hfKey : Option String
  hfModel : Option String
  geminiKey : Option String
  geminiModel : String
  geminiBase : String
  seedEnabled : Bool
  seedPre : String
  hfMaxRetries : Int
  hfMinBackoff : ℚ
  hfMaxBackoff : ℚ
  hfWaitForModelMs : Int

/-- The model loop of `_post_gemini_try_models_with_base`: try candidates in
order, return the first non-404 response, or the last response if every
candidate yields 404. -/
def goModels (g : GOracle) (baseUrl : String) :
    Nat → String → List String → GResp × String × Nat × GTrace
  | k, m, rest =>
    let s := post_gemini_with_retries g k (some m) (some baseUrl)
    if s.1.status ≠ 404 then (s.1, m, s.2.1, s.2.2)
    else
      match rest with
      | [] => (s.1, m, s.2.1, s.2.2)
      | m2 :: rest2 =>
        let s2 := goModels g baseUrl s.2.1 m2 rest2
        (s2.1, s2.2.1, s2.2.2.1, s.2.2 ++ s2.2.2.2)

/-- `_post_gemini_try_models_with_base` from `healthcare-backend/app.py`. -/
def post_gemini_try_models_with_base (g : GOracle) (env : Env) (k : Nat)
    (models : List String) (baseUrl : String) : GResp × String × Nat × GTrace :=
  match unique_nonempty_strings models with
  | [] =>
    let s := post_gemini_with_retries g k none (some baseUrl)
    (s.1, env.geminiModel, s.2.1, s.2.2)
  | m :: rest => goModels g baseUrl k m rest

/-- The base-URL loop of `_post_gemini_try_targets`. -/
def goBases (g : GOracle) (env : Env) (models : List String) :
    Nat → String → List String → GResp × String × String × Nat × GTrace
  | k, b, rest =>
    let s := post_gemini_try_models_with_base g env k models b
    if s.1.status ≠ 404 then (s.1, s.2.1, b, s.2.2.1, s.2.2.2)
    else
      match rest with
      | [] => (s.1, s.2.1, b, s.2.2.1, s.2.2.2)
      | b2 :: rest2 =>
        let s2 := goBases g env models s.2.2.1 b2 rest2
        (s2.1, s2.2.1, s2.2.2.1, s2.2.2.2.1, s.2.2.2 ++ s2.2.2.2.2)

/-- Base-URL candidate list used by `_post_gemini_try_targets` (falls back to
the configured base when the cleaned list is empty). -/
def gemBaseCands (env : Env) (baseUrls : List String) : List String :=
  match unique_nonempty_strings baseUrls with
  | [] => [env.geminiBase]
  | l => l

/-- `_post_gemini_try_targets` from `healthcare-backend/app.py`.  The first
match arm is unreachable because `gemBaseCands` is never empty. -/
def post_gemini_try_targets (g : GOracle) (env : Env) (k : Nat)
    (models : List String) (baseUrls : List String) :
    GResp × String × String × Nat × GTrace :=
  match gemBaseCands env baseUrls with
  | [] => (⟨404, none⟩, env.geminiModel, env.geminiBase, k, [])
  | b :: rest => goBases g env models k b rest

/-! ### Behaviour of the fallback drivers -/

theorem gTransient_404 : gTransient 404 = false := by decide

theorem with_retries_not_transient (g : GOracle) (k : Nat)
    (mo bo : Option String) (h : gTransient (g k mo bo).status = false) :
    post_gemini_with_retries g k mo bo = (g k mo bo, k + 1, [(mo, bo)]) := by
  unfold post_gemini_with_retries
  rw [if_neg (by simp [h])]

/-- With a call-index-independent provider, `_post_gemini_with_retries`
returns the provider's response for the pair, after one call (three on a
transient status). -/
theorem with_retries_const (f : Option String → Option String → GResp)
    (k : Nat) (mo bo : Option String) :
    post_gemini_with_retries (fun _ x y => f x y) k mo bo =
      (f mo bo, k + (if gTransient (f mo bo).status then 3 else 1),
       List.replicate (if gTransient (f mo bo).status then 3 else 1) (mo, bo)) := by
  unfold post_gemini_with_retries
  by_cases h : gTransient (f mo bo).status <;>
    simp [h, List.replicate_succ]

theorem goModels_eq (g : GOracle) (baseUrl : String) (k : Nat) (m : String)
    (rest : List String) :
    goModels g baseUrl k m rest =
      (let s := post_gemini_with_retries g k (some m) (some baseUrl)
       if s.1.status ≠ 404 then (s.1, m, s.2.1, s.2.2)
       else
         match rest with
         | [] => (s.1, m, s.2.1, s.2.2)
         | m2 :: rest2 =>
           let s2 := goModels g baseUrl s.2.1 m2 rest2
           (s2.1, s2.2.1, s2.2.2.1, s.2.2 ++ s2.2.2.2)) := by
  rw [goModels.eq_def]

/-- When every model candidate answers 404 on every call, the model loop
tries each candidate once, in order, and returns the last response. -/
theorem goModels_all404 (g : GOracle) (b : String) :
    ∀ (rest : List String) (m : String) (k : Nat),
    (∀ j mm, mm ∈ m :: rest → (g j (some mm) (some b)).status = 404) →
    goModels g b k m rest =
      (g (k + rest.length) (some (rest.getLastD m)) (some b),
       rest.getLastD m, k + rest.length + 1,
       (m :: rest).map (fun x => (some x, some b))) := by
  intro rest
  induction rest with
  | nil =>
    intro m k h404
    have h0 : (g k (some m) (some b)).status = 404 := h404 k m (by simp)
    rw [goModels_eq]
    simp only [with_retries_not_transient g k _ _ (by rw [h0]; exact gTransient_404)]
    simp [h0]
  | cons m2 rest2 ih =>
    intro m k h404
    have h0 : (g k (some m) (some b)).status = 404 := h404 k m (by simp)
    rw [goModels_eq]
    simp only [with_retries_not_transient g k _ _ (by rw [h0]; exact gTransient_404)]
    rw [if_neg (by simp [h0])]
    have ih' := ih m2 (k + 1)
      (fun j mm hmm => h404 j mm (List.mem_cons.mpr (Or.inr hmm)))
    simp only [ih']
    have hlast : rest2.getLastD m2 = (m2 :: rest2).getLastD m := by
      simp [List.getLastD_eq_getLast?, List.getLast?_cons]
    have harith : k + 1 + rest2.length = k + (m2 :: rest2).length := by
      simp [List.length_cons]; ring
    rw [hlast, harith]
    simp

/-- When the first `Pm` candidates answer 404 and candidate `mj` answers
non-404 (provider independent of call index), the model loop stops at `mj`
and returns its response, re-posting `mj` only for its own transient
retries. -/
theorem goModels_stop (f : Option String → Option String → GResp) (b : String) :
    ∀ (Pm : List String) (mj : String) (restm : List String) (m : String)
      (rest : List String) (k : Nat),
    m :: rest = Pm ++ mj :: restm →
    (∀ mm ∈ Pm, (f (some mm) (some b)).status = 404) →
    (f (some mj) (some b)).status ≠ 404 →
    goModels (fun _ x y => f x y) b k m rest =
      (f (some mj) (some b), mj,
       k + Pm.length + (if gTransient (f (some mj) (some b)).status then 3 else 1),
       Pm.map (fun x => (some x, some b)) ++
         List.replicate
           (if gTransient (f (some mj) (some b)).status then 3 else 1)
           (some mj, some b)) := by
  intro Pm
  induction Pm with
  | nil =>
    intro mj restm m rest k heq h404 hstop
    have hm : m = mj := by simpa using congrArg (fun l => List.headD l m) heq
    have hr : rest = restm := by simpa [hm] using congrArg List.tail heq
    subst hm; subst hr
    rw [goModels_eq]
    simp only [with_retries_const]
    rw [if_pos (by simpa using hstop)]
    simp
  | cons p Pm' ih =>
    intro mj restm m rest k heq h404 hstop
    have hm : m = p := by simpa using congrArg (fun l => List.headD l m) heq
    subst hm
    have hr : rest = Pm' ++ mj :: restm := by
      simpa using congrArg List.tail heq
    have h0 : (f (some m) (some b)).status = 404 := h404 m (by simp)
    rw [goModels_eq]
    simp only [with_retries_const]
    rw [show (if gTransient (f (some m) (some b)).status then 3 else 1) = 1 by
      rw [h0]; simp [gTransient_404]]
    rw [if_neg (by simp [h0])]
    rcases hrc : rest with _ | ⟨m2, rest2⟩
    · exact absurd (hrc ▸ hr) (by simp)
    · have hr2 : m2 :: rest2 = Pm' ++ mj :: restm := by rw [← hrc, hr]
      have ih' := ih mj restm m2 rest2 (k + 1) hr2
        (fun mm hmm => h404 mm (List.mem_cons.mpr (Or.inr hmm))) hstop
      simp only [ih']
      have harith : k + 1 + Pm'.length = k + (m :: Pm').length := by
        simp [List.length_cons]; ring
      rw [harith]
      simp

theorem tmwb_all404 (g : GOracle) (env : Env) (models : List String)
    (b : String) (m0 : String) (mrest : List String) (k : Nat)
    (hm : unique_nonempty_strings models = m0 :: mrest)
    (h404 : ∀ j mm, mm ∈ m0 :: mrest → (g j (some mm) (some b)).status = 404) :
    post_gemini_try_models_with_base g env k models b =
      (g (k + mrest.length) (some (mrest.getLastD m0)) (some b),
       mrest.getLastD m0, k + mrest.length + 1,
       (m0 :: mrest).map (fun x => (some x, some b))) := by
  unfold post_gemini_try_models_with_base
  rw [hm]
  exact goModels_all404 g b mrest m0 k h404

theorem tmwb_stop (f : Option String → Option String → GResp) (env : Env)
    (models : List String) (bj : String) (m0 : String) (mrest : List String)
    (Pm : List String) (mj : String) (restm : List String) (k : Nat)
    (hm : unique_nonempty_strings models = m0 :: mrest)
    (hsplit : m0 :: mrest = Pm ++ mj :: restm)
    (h404m : ∀ mm ∈ Pm, (f (some mm) (some bj)).status = 404)
    (hstop : (f (some mj) (some bj)).status ≠ 404) :
    post_gemini_try_models_with_base (fun _ x y => f x y) env k models bj =
      (f (some mj) (some bj), mj,
       k + Pm.length + (if gTransient (f (some mj) (some bj)).status then 3 else 1),
       Pm.map (fun x => (some x, some bj)) ++
         List.replicate
           (if gTransient (f (some mj) (some bj)).status then 3 else 1)
           (some mj, some bj)) := by
  unfold post_gemini_try_models_with_base
  rw [hm]
  exact goModels_stop f bj Pm mj restm m0 mrest k hsplit h404m hstop

theorem goBases_eq (g : GOracle) (env : Env) (models : List String) (k : Nat)
    (b : String) (rest : List String) :
    goBases g env models k b rest =
      (let s := post_gemini_try_models_with_base g env k models b
       if s.1.status ≠ 404 then (s.1, s.2.1, b, s.2.2.1, s.2.2.2)
       else
         match rest with
         | [] => (s.1, s.2.1, b, s.2.2.1, s.2.2.2)
         | b2 :: rest2 =>
           let s2 := goBases g env models s.2.2.1 b2 rest2
           (s2.1, s2.2.1, s2.2.2.1, s2.2.2.2.1, s.2.2.2 ++ s2.2.2.2.2)) := by
  rw [goBases.eq_def]

/-- When every `(model, base)` pair answers 404 on every call, the base loop
walks the bases in order, trying every model candidate once under each, and
returns the response of the very last pair. -/
theorem goBases_all404 (g : GOracle) (env : Env) (models : List String)
    (m0 : String) (mrest : List String)
    (hm : unique_nonempty_strings models = m0 :: mrest) :
    ∀ (rest : List String) (b : String) (k : Nat),
    (∀ j mm bb, mm ∈ m0 :: mrest → bb ∈ b :: rest →
      (g j (some mm) (some bb)).status = 404) →
    goBases g env models k b rest =
      (g (k + rest.length * (mrest.length + 1) + mrest.length)
         (some (mrest.getLastD m0)) (some (rest.getLastD b)),
       mrest.getLastD m0, rest.getLastD b,
       k + (rest.length + 1) * (mrest.length + 1),
       (b :: rest).flatMap
         (fun bb => (m0 :: mrest).map (fun x => (some x, some bb)))) := by
  intro rest
  induction rest with
  | nil =>
    intro b k h404
    rw [goBases_eq]
    rw [tmwb_all404 g env models b m0 mrest k hm
      (fun j mm hmm => h404 j mm b hmm (by simp))]
    rw [if_neg (by
      have h := h404 (k + mrest.length) (mrest.getLastD m0) b
        (List.getLastD_mem_cons mrest m0) (by simp)
      rw [List.getLastD_eq_getLast?] at h
      simp [h])]
    simp [Nat.one_mul]
    ring_nf
  | cons b2 rest2 ih =>
    intro b k h404
    rw [goBases_eq]
    rw [tmwb_all404 g env models b m0 mrest k hm
      (fun j mm hmm => h404 j mm b hmm (by simp))]
    rw [if_neg (by
      have h := h404 (k + mrest.length) (mrest.getLastD m0) b
        (List.getLastD_mem_cons mrest m0) (by simp)
      rw [List.getLastD_eq_getLast?] at h
      simp [h])]
    have ih' := ih b2 (k + mrest.length + 1)
      (fun j mm bb hmm hbb =>
        h404 j mm bb hmm (List.mem_cons.mpr (Or.inr hbb)))
    simp only [ih']
    have hlast : rest2.getLastD b2 = (b2 :: rest2).getLastD b := by
      simp [List.getLastD_eq_getLast?, List.getLast?_cons]
    have h1 : k + mrest.length + 1 + rest2.length * (mrest.length + 1)
        + mrest.length
        = k + (b2 :: rest2).length * (mrest.length + 1) + mrest.length := by
      simp [List.length_cons]; ring
    have h2 : k + mrest.length + 1 + (rest2.length + 1) * (mrest.length + 1)
        = k + ((b2 :: rest2).length + 1) * (mrest.length + 1) := by
      simp [List.length_cons]; ring
    rw [hlast, h1, h2]
    simp

/-- When the bases in `Pb` answer 404 for every model candidate, and under
base `bj` the candidates in `Pm` answer 404 while `mj` answers non-404, the
base loop stops at `(mj, bj)` and returns that response. -/
theorem goBases_stop (f : Option String → Option String → GResp) (env : Env)
    (models : List String) (m0 : String) (mrest : List String)
    (Pm : List String) (mj : String) (restm : List String)
    (hm : unique_nonempty_strings models = m0 :: mrest)
    (hsplitm : m0 :: mrest = Pm ++ mj :: restm) :
    ∀ (Pb : List String) (bj : String) (restb : List String) (b : String)
      (rest : List String) (k : Nat),
    b :: rest = Pb ++ bj :: restb →
    (∀ bb ∈ Pb, ∀ mm ∈ m0 :: mrest, (f (some mm) (some bb)).status = 404) →
    (∀ mm ∈ Pm, (f (some mm) (some bj)).status = 404) →
    (f (some mj) (some bj)).status ≠ 404 →
    goBases (fun _ x y => f x y) env models k b rest =
      (f (some mj) (some bj), mj, bj,
       k + Pb.length * (mrest.length + 1) + Pm.length +
         (if gTransient (f (some mj) (some bj)).status then 3 else 1),
       Pb.flatMap (fun bb => (m0 :: mrest).map (fun x => (some x, some bb))) ++
         (Pm.map (fun x => (some x, some bj)) ++
          List.replicate
            (if gTransient (f (some mj) (some bj)).status then 3 else 1)
            (some mj, some bj))) := by
  intro Pb
  induction Pb with
  | nil =>
    intro bj restb b rest k heq h404P h404m hstop
    have hb : b = bj := by simpa using congrArg (fun l => List.headD l b) heq
    subst hb
    rw [goBases_eq]
    rw [tmwb_stop f env models b m0 mrest Pm mj restm k hm hsplitm h404m hstop]
    rw [if_pos (by simpa using hstop)]
    simp
  | cons pb Pb' ih =>
    intro bj restb b rest k heq h404P h404m hstop
    have hb : b = pb := by simpa using congrArg (fun l => List.headD l b) heq
    subst hb
    have hr : rest = Pb' ++ bj :: restb := by
      simpa using congrArg List.tail heq
    rw [goBases_eq]
    rw [tmwb_all404 (fun _ x y => f x y) env models b m0 mrest k hm
      (fun j mm hmm => h404P b (by simp) mm hmm)]
    rw [if_neg (by
      have h := h404P b (by simp) (mrest.getLastD m0)
        (List.getLastD_mem_cons mrest m0)
      rw [List.getLastD_eq_getLast?] at h
      simp [h])]
    rcases hrc : rest with _ | ⟨b2, rest2⟩
    · exact absurd (hrc ▸ hr) (by simp)
    · have hr2 : b2 :: rest2 = Pb' ++ bj :: restb := by rw [← hrc, hr]
      have ih' := ih bj restb b2 rest2 (k + mrest.length + 1) hr2
        (fun bb hbb => h404P bb (List.mem_cons.mpr (Or.inr hbb))) h404m hstop
      simp only [ih']
      have harith : k + mrest.length + 1 + Pb'.length * (mrest.length + 1)
          = k + (b :: Pb').length * (mrest.length + 1) := by
        simp [List.length_cons]; ring
      rw [harith]
      simp

theorem gemBaseCands_ne_nil (env : Env) (baseUrls : List String) :
    gemBaseCands env baseUrls ≠ [] := by
  unfold gemBaseCands
  rcases h : unique_nonempty_strings baseUrls with _ | ⟨b, rest⟩ <;> simp

theorem try_targets_eq (g : GOracle) (env : Env) (k : Nat)
    (models : List String) (baseUrls : List String) (b : String)
    (rest : List String) (hb : gemBaseCands env baseUrls = b :: rest) :
    post_gemini_try_targets g env k models baseUrls =
      goBases g env models k b rest := by
  unfold post_gemini_try_targets
  rw [hb]

/-! ## The Hugging Face resilience loop

`_post_hf_with_resilience` from `healthcare-backend/app.py`.  The wall clock
is an explicit rational number of seconds since the loop started
(`started = time.time()`); each outbound call advances it by an
oracle-supplied nonnegative latency and each `time.sleep` by the slept
delay.  `time.time() % 1` (the jitter source) is an oracle value in
`[0, 1)`. -/

/-- Python `needle in hay` on strings. -/
def hasSubstr (needle hay : String) : Bool := (hay.splitOn needle).length > 1

def allDigits (l : List Char) : Bool := l.all (fun c => c.isDigit)

def natOfDigits (l : List Char) : Nat :=
  l.foldl (fun a c => a * 10 + (c.toNat - 48)) 0

/-- Python `float(str)` on an unsigned decimal literal (the forms a
`retry-after` header carries; exponent/infinity forms are out of scope). -/
def pyFloatCore (l : List Char) : Option ℚ :=
  let ip := l.takeWhile (fun c => c ≠ '.')
  let rest := l.dropWhile (fun c => c ≠ '.')
  match rest with
  | [] => if ip ≠ [] ∧ allDigits ip then some ((natOfDigits ip : ℚ)) else none
  | _ :: fp =>
    if (ip ≠ [] ∨ fp ≠ []) ∧ allDigits ip ∧ allDigits fp ∧
        fp.all (fun c => c ≠ '.') then
      some ((natOfDigits ip : ℚ) + (natOfDigits fp : ℚ) / (10 : ℚ) ^ fp.length)
    else none

/-- Python `float(str)` with optional sign and surrounding whitespace. -/
def pyFloatOfString (s : String) : Option ℚ :=
  match stripChars s.data with
  | '+' :: rest => pyFloatCore rest
  | '-' :: rest => (pyFloatCore rest).map (fun q => -q)
  | l => pyFloatCore l

/-- A provider response as `_post_hf_with_resilience` observes it: HTTP
status, whether the `content-type` header starts with `application/json`,
the parsed JSON body (`none` when parsing would raise), and the
`retry-after` header. -/
structure HFResp where
  status : Nat
  ctJson : Bool
  jsonBody : Option JVal
  retryAfter : Option String

/-- `_parse_retry_after_seconds`: absent/empty header, unparseable value or
negative value yield `None`. -/
def parse_retry_after (resp : HFResp) : Option ℚ :=
  match resp.retryAfter with
  | none => none
  | some v =>
    if v = "" then none
    else
      match pyFloatOfString v with
      | none => none
      | some q => if q < 0 then none else some q

/-- `_extract_hf_error`: the `error` message (when a string) and the
`estimated_time` (when numeric) of a JSON body. -/
def extract_hf_error (j : JVal) : Option String × Option ℚ :=
  match j with
  | .obj fs =>
    (match objGet fs "error" with
     | some (.str m) => some m
     | _ => none,
     match objGet fs "estimated_time" with
     | some (.num q) => some q
     | _ => none)
  | _ => (none, none)

/-- `_extract_hf_text`: `response_json["choices"][0]["message"]["content"]`
when the envelope has the OpenAI-compatible shape; `none` models the raised
`ValueError("Unexpected Hugging Face router response format")`. -/
def extract_hf_text (j : JVal) : Option String :=
  match j with
  | .obj fs =>
    match objGet fs "choices" with
    | some (.arr (first :: _)) =>
      match first with
      | .obj ffs =>
        match objGet ffs "message" with
        | some (.obj mfs) =>
          match objGet mfs "content" with
          | some (.str s) => some s
          | _ => none
        | _ => none
      | _ => none
    | _ => none
  | _ => none

/-- Python `int()` on a rational: truncation toward zero. -/
def pyInt (q : ℚ) : Int := Int.tdiv q.num q.den

/-- The exponential backoff with jitter, clamped to `max_backoff_s`:
`min(max_backoff_s, min_backoff_s * 2 ** max(0, attempt - 1) * jitter)` with
`jitter = 0.75 + 0.5 * (time.time() % 1)`. -/
def hfBackoff (minB maxB frac : ℚ) (attempt : Nat) : ℚ :=
  min maxB (minB * 2 ^ (attempt - 1) * (0.75 + 0.5 * frac))

/-- Does the JSON body signal a loading model
(`message and "loading" in message.lower()`)? -/
def hfLoadingMsg (rj : Option JVal) : Bool :=
  match rj with
  | some j =>
    match (extract_hf_error j).1 with
    | some m => m ≠ "" && hasSubstr "loading" (⟨lowerChars m.data⟩ : String)
    | none => false
  | none => false

/-- The `estimated_time` hint of the JSON body, if any. -/
def hfEstimate (rj : Option JVal) : Option ℚ :=
  match rj with
  | some j => (extract_hf_error j).2
  | none => none

/-- Oracles feeding one run of the resilience loop: the provider response,
call latency in seconds (nonnegative), and the `time.time() % 1` jitter
source (in `[0, 1)`), all indexed by the outbound-call number. -/
structure HfWorld where
  resp : Nat → HFResp
  lat : Nat → {q : ℚ // 0 ≤ q}
  frac : Nat → {q : ℚ // 0 ≤ q ∧ q < 1}

/-- Result of the resilience loop: either a raised `PermissionError`
(carrying the 401/403 status) or the returned response, together with the
number of outbound calls made and the slept delays in order. -/
structure HfRes where
  outcome : Except Nat HFResp
  calls : Nat
  sleeps : List ℚ

/-- What one iteration of the resilience loop does. -/
inductive HfStepRes where
  | done : HfRes → HfStepRes
  | next : ℚ → ℚ → HfStepRes

/-- `resp_json` as the loop computes it: the parsed body only when the
`content-type` is JSON. -/
def hfRespJson (resp : HFResp) : Option JVal :=
  if resp.ctJson then resp.jsonBody else none

/-- The `estimated_time` with the loop's default: `(estimated_s or 1.2)`
(so a zero hint also falls back to 1.2, since `0.0` is falsy). -/
def hfEstDefault (rj : Option JVal) : ℚ :=
  match hfEstimate rj with
  | some e => if e = 0 then 1.2 else e
  | none => 1.2

/-- The delay slept after a 429: the parsed `retry-after` hint when present,
the computed backoff otherwise.  The hint is used as-is, unclamped. -/
def hf429Delay (resp : HFResp) (minB maxB frac : ℚ) (attempt : Nat) : ℚ :=
  match parse_retry_after resp with
  | some q => q
  | none => hfBackoff minB maxB frac attempt

/-- The model-loading poll delay in milliseconds:
`max(400, min(6000, min(suggested_ms, remaining_ms)))`. -/
def hfLoadDelayMs (rj : Option JVal) (remainingMs : Int) : Int :=
  max 400 (min 6000 (min (pyInt (hfEstDefault rj * 1000)) remainingMs))

/-- One iteration of the `while True` loop of `_post_hf_with_resilience`,
at `a` completed attempts and clock `t`: either a terminal result or
`next delay t'` (sleep `delay`, continue at clock `t'`). -/
def hfStep (w : HfWorld) (mr : Nat) (minB maxB : ℚ) (wm : Nat) (a : Nat)
    (t : ℚ) : HfStepRes :=
  let attempt := a + 1
  let resp := w.resp a
  let t1 := t + (w.lat a).val
  let respJson := hfRespJson resp
  if resp.status = 401 ∨ resp.status = 403 then
    .done ⟨Except.error resp.status, attempt, []⟩
  else if resp.status = 429 then
    if attempt > mr + 1 then .done ⟨Except.ok resp, attempt, []⟩
    else
      let delay := hf429Delay resp minB maxB (w.frac a).val attempt
      .next delay (t1 + delay)
  else if resp.status = 503 ∧ 0 < wm ∧ hfLoadingMsg respJson then
    let remainingMs : Int := (wm : Int) - pyInt (1000 * t1)
    if remainingMs ≤ 0 then .done ⟨Except.ok resp, attempt, []⟩
    else
      let delayMs : Int := hfLoadDelayMs respJson remainingMs
      let delayS : ℚ := (delayMs : ℚ) / 1000
      .next delayS (t1 + delayS)
  else if (resp.status = 500 ∨ resp.status = 502 ∨ resp.status = 503 ∨
      resp.status = 504) ∧ attempt ≤ mr then
    let delay := hfBackoff minB maxB (w.frac a).val attempt
    .next delay (t1 + delay)
  else .done ⟨Except.ok resp, attempt, []⟩

/-- The fuelled loop: iterate `hfStep`, recording slept delays.  `none`
means the fuel ran out; `hfCallBound` fuel never does (see
`hfStepLoop_isSome_of_phi`). -/
def hfStepLoop (w : HfWorld) (mr : Nat) (minB maxB : ℚ) (wm : Nat) :
    Nat → Nat → ℚ → Option HfRes
  | 0, _, _ => none
  | fuel + 1, a, t =>
    match hfStep w mr minB maxB wm a t with
    | .done r => some r
    | .next delay t' =>
      (hfStepLoop w mr minB maxB wm fuel (a + 1) t').map
        (fun r => ⟨r.outcome, r.calls, delay :: r.sleeps⟩)

/-- The clamped configuration values read at the top of
`_post_hf_with_resilience`. -/
def hfMr (env : Env) : Nat := (max 0 (min env.hfMaxRetries 6)).toNat

def hfMinB (env : Env) : ℚ := max 0.1 (min env.hfMinBackoff 10)

def hfMaxB (env : Env) : ℚ := max 0.5 (min env.hfMaxBackoff 60)

def hfWm (env : Env) : Nat := (max 0 (min env.hfWaitForModelMs 120000)).toNat

/-- An upper bound on the number of loop iterations: at most `mr + 1`
rate-limit/5xx retries plus `⌈wm / 400⌉` model-loading polls plus the
terminal iteration. -/
def hfCallBound (mr wm : Nat) : Nat := mr + (wm + 399) / 400 + 2

/-! ### Termination of the resilience loop -/

/-- The elapsed milliseconds as the loop computes them:
`int((time.time() - started) * 1000)`. -/
def emOf (t : ℚ) : Nat := (pyInt (1000 * t)).toNat

/-- Ranking function: remaining retry budget plus remaining model-loading
poll budget. -/
def hfPhi (mr wm : Nat) (a : Nat) (t : ℚ) : Nat :=
  (mr + 1 - a) + (wm - min (emOf t) wm + 399) / 400

theorem pyInt_eq_floor (q : ℚ) (h : 0 ≤ q) : pyInt q = ⌊q⌋ := by
  rw [Rat.floor_def]
  exact Int.tdiv_eq_ediv (Rat.num_nonneg.mpr h) (by positivity)

theorem emOf_mono {t t' : ℚ} (ht : 0 ≤ t) (h : t ≤ t') : emOf t ≤ emOf t' := by
  unfold emOf
  rw [pyInt_eq_floor _ (by positivity),
    pyInt_eq_floor _ (by nlinarith)]
  have hf := Int.floor_mono (show (1000 : ℚ) * t ≤ 1000 * t' by nlinarith)
  omega

theorem emOf_add_int {t : ℚ} (ht : 0 ≤ t) (n : Int) (hn : 0 ≤ n) :
    emOf (t + (n : ℚ) / 1000) = emOf t + n.toNat := by
  unfold emOf
  have harg : 1000 * (t + (n : ℚ) / 1000) = 1000 * t + (n : ℚ) := by ring
  rw [harg, pyInt_eq_floor _ (add_nonneg (by positivity) (by exact_mod_cast hn)),
    pyInt_eq_floor _ (by positivity), Int.floor_add_int]
  have h0 : 0 ≤ ⌊(1000 : ℚ) * t⌋ := Int.floor_nonneg.mpr (by positivity)
  omega

theorem hfG_anti (wm : Nat) {e e' : Nat} (h : e ≤ e') :
    (wm - min e' wm + 399) / 400 ≤ (wm - min e wm + 399) / 400 :=
  Nat.div_le_div_right (by omega)

theorem hfG_dec (wm e e' : Nat) (h1 : e < wm) (h2 : e + 400 ≤ e') :
    (wm - min e' wm + 399) / 400 + 1 ≤ (wm - min e wm + 399) / 400 := by
  have hmin : min e wm = e := min_eq_left h1.le
  rw [hmin]
  have hd : wm - min e' wm ≤ wm - e - 400 := by
    rcases le_or_lt e' wm with h | h
    · rw [min_eq_left h]; omega
    · rw [min_eq_right h.le]; omega
  have step1 : (wm - min e' wm + 399) / 400 ≤ (wm - e - 400 + 399) / 400 :=
    Nat.div_le_div_right (by omega)
  rcases le_or_lt 400 (wm - e) with hc | hc
  · have heq : wm - e - 400 + 399 + 400 = wm - e + 399 := by omega
    have h400 : (wm - e - 400 + 399 + 400) / 400
        = (wm - e - 400 + 399) / 400 + 1 := Nat.add_div_right _ (by norm_num)
    rw [heq] at h400
    omega
  · have hL : (wm - e - 400 + 399) / 400 = 0 := Nat.div_eq_of_lt (by omega)
    have hR : 1 ≤ (wm - e + 399) / 400 :=
      (Nat.one_le_div_iff (by norm_num)).mpr (by omega)
    omega

theorem parse_retry_after_nonneg {resp : HFResp} {q : ℚ}
    (h : parse_retry_after resp = some q) : 0 ≤ q := by
  unfold parse_retry_after at h
  rcases hra : resp.retryAfter with _ | v
  · rw [hra] at h
    exact absurd h (by simp)
  · rw [hra] at h
    replace h : (if v = "" then none
        else match pyFloatOfString v with
          | none => none
          | some q => if q < 0 then none else some q) = some q := h
    split_ifs at h with h1
    rcases hp : pyFloatOfString v with _ | r
    · rw [hp] at h
      exact absurd h (by simp)
    · rw [hp] at h
      replace h : (if r < 0 then none else some r) = some q := h
      split_ifs at h with h2
      have hrq : r = q := by
        first
          | exact h
          | exact Option.some_inj.mp h
      exact hrq ▸ le_of_not_lt h2

theorem hfBackoff_nonneg {minB maxB frac : ℚ} (hminB : 0 < minB)
    (hmaxB : 0 < maxB) (hfrac : 0 ≤ frac) (attempt : Nat) :
    0 ≤ hfBackoff minB maxB frac attempt := by
  unfold hfBackoff
  apply le_min hmaxB.le
  have h1 : (0 : ℚ) ≤ minB * 2 ^ (attempt - 1) := by positivity
  have h2 : (0 : ℚ) ≤ 0.75 + 0.5 * frac := by nlinarith
  nlinarith

/-- The 429 sleep delay is nonnegative. -/
theorem hf429Delay_nonneg (resp : HFResp) {minB maxB frac : ℚ}
    (hminB : 0 < minB) (hmaxB : 0 < maxB) (hfrac : 0 ≤ frac) (attempt : Nat) :
    0 ≤ hf429Delay resp minB maxB frac attempt := by
  unfold hf429Delay
  rcases hpr : parse_retry_after resp with _ | q
  · exact hfBackoff_nonneg hminB hmaxB hfrac attempt
  · exact parse_retry_after_nonneg hpr

theorem hfLoadDelayMs_ge (rj : Option JVal) (remainingMs : Int) :
    400 ≤ hfLoadDelayMs rj remainingMs := le_max_left _ _

/-- Any `next` step of the loop keeps the clock nonnegative and strictly
decreases the ranking function. -/
theorem hfStep_next (w : HfWorld) (mr : Nat) (minB maxB : ℚ) (wm : Nat)
    (hminB : 0 < minB) (hmaxB : 0 < maxB) (a : Nat) (t delay t' : ℚ)
    (ht : 0 ≤ t)
    (h : hfStep w mr minB maxB wm a t = .next delay t') :
    0 ≤ t' ∧ hfPhi mr wm (a + 1) t' < hfPhi mr wm a t := by
  have hlat : 0 ≤ (w.lat a).val := (w.lat a).property
  have hfrac : 0 ≤ (w.frac a).val := (w.frac a).property.1
  have ht1 : 0 ≤ t + (w.lat a).val := add_nonneg ht hlat
  simp only [hfStep] at h
  split_ifs at h with h401 h429 hgt hload hrem h5xx
  · -- 429, within the retry budget
    obtain ⟨h1, h2⟩ := h
    have ha : a ≤ mr := by omega
    have hdel : 0 ≤ hf429Delay (w.resp a) minB maxB (w.frac a).val (a + 1) :=
      hf429Delay_nonneg _ hminB hmaxB hfrac (a + 1)
    constructor
    · exact add_nonneg ht1 hdel
    · unfold hfPhi
      have hmono : emOf t ≤ emOf (t + (w.lat a).val +
          hf429Delay (w.resp a) minB maxB (w.frac a).val (a + 1)) :=
        emOf_mono ht (by nlinarith)
      have hg := hfG_anti wm hmono
      omega
  · -- model-loading poll
    obtain ⟨h1, h2⟩ := h
    have hfl : 0 ≤ (1000 : ℚ) * (t + (w.lat a).val) := by positivity
    have hfloor : 0 ≤ pyInt (1000 * (t + (w.lat a).val)) := by
      rw [pyInt_eq_floor _ hfl]
      exact Int.floor_nonneg.mpr hfl
    have hlt : emOf (t + (w.lat a).val) < wm := by
      unfold emOf
      omega
    set dms := hfLoadDelayMs (hfRespJson (w.resp a))
      ((wm : Int) - pyInt (1000 * (t + (w.lat a).val))) with hdms
    have hdms400 : 400 ≤ dms := hfLoadDelayMs_ge _ _
    have hdmsng : (0 : Int) ≤ dms := by omega
    have hem : emOf (t + (w.lat a).val + (dms : ℚ) / 1000)
        = emOf (t + (w.lat a).val) + dms.toNat :=
      emOf_add_int ht1 dms hdmsng
    have hemge : emOf (t + (w.lat a).val) + 400
        ≤ emOf (t + (w.lat a).val + (dms : ℚ) / 1000) := by omega
    constructor
    · apply add_nonneg ht1
      apply div_nonneg _ (by norm_num)
      exact_mod_cast hdmsng
    · unfold hfPhi
      have hmono : emOf t ≤ emOf (t + (w.lat a).val) :=
        emOf_mono ht (by nlinarith)
      have hg1 := hfG_dec wm (emOf (t + (w.lat a).val))
        (emOf (t + (w.lat a).val + (dms : ℚ) / 1000)) hlt hemge
      have hg2 := hfG_anti wm hmono
      omega
  · -- transient 5xx retry
    obtain ⟨h1, h2⟩ := h
    have ha : a + 1 ≤ mr := h5xx.2
    have hdel : 0 ≤ hfBackoff minB maxB (w.frac a).val (a + 1) :=
      hfBackoff_nonneg hminB hmaxB hfrac (a + 1)
    constructor
    · exact add_nonneg ht1 hdel
    · unfold hfPhi
      have hmono : emOf t ≤ emOf (t + (w.lat a).val +
          hfBackoff minB maxB (w.frac a).val (a + 1)) :=
        emOf_mono ht (by nlinarith)
      have hg := hfG_anti wm hmono
      omega

/-- With fuel exceeding the ranking function, the loop completes. -/
theorem hfStepLoop_isSome_of_phi (w : HfWorld) (mr : Nat) (minB maxB : ℚ)
    (wm : Nat) (hminB : 0 < minB) (hmaxB : 0 < maxB) :
    ∀ (fuel a : Nat) (t : ℚ), 0 ≤ t → hfPhi mr wm a t < fuel →
      (hfStepLoop w mr minB maxB wm fuel a t).isSome := by
  intro fuel
  induction fuel with
  | zero => intro a t _ h; omega
  | succ fuel ih =>
    intro a t ht hphi
    rw [hfStepLoop]
    rcases hstep : hfStep w mr minB maxB wm a t with r | ⟨delay, t'⟩
    · simp
    · obtain ⟨ht'0, hdec⟩ :=
        hfStep_next w mr minB maxB wm hminB hmaxB a t delay t' ht hstep
      have hrec := ih (a + 1) t' ht'0 (by omega)
      simpa using hrec

/-- A terminal step reports exactly the current attempt as its call count. -/
theorem hfStep_done_calls (w : HfWorld) (mr : Nat) (minB maxB : ℚ) (wm : Nat)
    (a : Nat) (t : ℚ) (r : HfRes)
    (h : hfStep w mr minB maxB wm a t = .done r) : r.calls = a + 1 := by
  simp only [hfStep] at h
  split_ifs at h <;> (cases h; rfl)

/-- The number of outbound calls the loop reports is bounded by the starting
attempt count plus the fuel. -/
theorem hfStepLoop_calls_le (w : HfWorld) (mr : Nat) (minB maxB : ℚ)
    (wm : Nat) : ∀ (fuel a : Nat) (t : ℚ) (r : HfRes),
    hfStepLoop w mr minB maxB wm fuel a t = some r → r.calls ≤ a + fuel := by
  intro fuel
  induction fuel with
  | zero => intro a t r h; simp [hfStepLoop] at h
  | succ fuel ih =>
    intro a t r h
    rw [hfStepLoop] at h
    rcases hstep : hfStep w mr minB maxB wm a t with r0 | ⟨delay, t'⟩ <;>
      rw [hstep] at h
    · have hr : r0 = r := by simpa using h
      subst hr
      have hc := hfStep_done_calls w mr minB maxB wm a t r0 hstep
      omega
    · simp only [Option.map_eq_some'] at h
      obtain ⟨r', hr', hrr⟩ := h
      have hle := ih (a + 1) t' r' hr'
      rw [← hrr]
      simpa using (by omega : r'.calls ≤ a + (fuel + 1))

theorem hfMinB_pos (env : Env) : 0 < hfMinB env :=
  lt_of_lt_of_le (by norm_num) (le_max_left _ _)

theorem hfMaxB_pos (env : Env) : 0 < hfMaxB env :=
  lt_of_lt_of_le (by norm_num) (le_max_left _ _)

theorem emOf_zero : emOf 0 = 0 := by
  unfold emOf pyInt
  norm_num

/-- The loop always completes within `hfCallBound` iterations. -/
theorem hfStepLoop_isSome (env : Env) (w : HfWorld) :
    (hfStepLoop w (hfMr env) (hfMinB env) (hfMaxB env) (hfWm env)
      (hfCallBound (hfMr env) (hfWm env)) 0 0).isSome := by
  apply hfStepLoop_isSome_of_phi w _ _ _ _ (hfMinB_pos env) (hfMaxB_pos env)
  · norm_num
  · unfold hfPhi hfCallBound
    rw [emOf_zero, Nat.zero_min]
    omega

/-- `_post_hf_with_resilience`: run the loop with sufficient fuel (the
`Option.get` is justified by `hfStepLoop_isSome`). -/
def post_hf_with_resilience (env : Env) (w : HfWorld) : HfRes :=
  (hfStepLoop w (hfMr env) (hfMinB env) (hfMaxB env) (hfWm env)
    (hfCallBound (hfMr env) (hfWm env)) 0 0).get (hfStepLoop_isSome env w)

/-! ## Cache lookup -/

/-- External collaborators of `_try_get_seeded_result`: whether
`import redis` succeeds, and the store fetch (by key), where `.error` models
any raised exception (connection refused and the like). -/
structure CacheWorld where
  redisImportOk : Bool
  fetch : String → Except Unit (Option String)

/-- The shape validation and dict rebuild at the end of
`_try_get_seeded_result` (the three `isinstance` checks and the literal
returned on success). -/
def seedValidate (p : JVal) : Option JVal :=
  match p with
  | .obj fields =>
    match objGet fields "conditions", objGet fields "recommendations",
        objGet fields "disclaimer" with
    | some (.arr conds), some (.str recs), some (.str disc) =>
      some (.obj [("conditions", .arr conds),
        ("recommendations", .str recs), ("disclaimer", .str disc)])
    | _, _, _ => none
  | _ => none

/-- `_try_get_seeded_result` from `healthcare-backend/app.py`.  `REDIS_URL`
only selects which store `fetch` talks to, so it is absorbed into the fetch
oracle; `env.seedPre` is the resolved `REDIS_SEED_PREFIX`. -/
def try_get_seeded_result (env : Env) (cw : CacheWorld)
    (jsonParse : String → Option JVal) (symptoms : String) : Option JVal :=
  if ¬ env.seedEnabled then none
  else if ¬ cw.redisImportOk then none
  else
    match cw.fetch (redis_seed_key env.seedPre symptoms) with
    | .error _ => none
    | .ok none => none
    | .ok (some raw) =>
      if raw = "" then none
      else
        match jsonParse raw with
        | none => none
        | some p => seedValidate p

/-- The shape the lookup actually validates: `conditions` is a JSON list
(with unchecked element types), `recommendations` and `disclaimer` are
strings. -/
def hasWeakShape (v : JVal) : Bool :=
  match v with
  | .obj fields =>
    (match objGet fields "conditions" with
     | some (.arr _) => true
     | _ => false) &&
    (match objGet fields "recommendations" with
     | some (.str _) => true
     | _ => false) &&
    (match objGet fields "disclaimer" with
     | some (.str _) => true
     | _ => false)
  | _ => false

/-- Modelled from the claim's description: are all `conditions` entries
strings? -/
def condsAllStrings (v : JVal) : Bool :=
  match v with
  | .obj fields =>
    match objGet fields "conditions" with
    | some (.arr l) =>
      l.all (fun x => match x with | .str _ => true | _ => false)
    | _ => false
  | _ => false

/-! ## Response normalizers -/

/-- Python `s.split(sep, 1)[1]`, assuming `sep` occurs in `s`. -/
def pySplitRest (sep s : String) : String :=
  String.intercalate sep ((s.splitOn sep).tail)

/-- Python `s.split(sep, 1)[0]` (also `s.split(sep)[0]`). -/
def pySplitFirst (sep s : String) : String := (s.splitOn sep).headD ""

/-- The canned `AnalysisResult` of `healthcare-backend/app.py`, returned on
parse failure of the model output. -/
def canned_result : JVal :=
  .obj [("conditions", .arr [.str "Consult a medical professional"]),
    ("recommendations",
     .str "Based on your symptoms, consult a doctor for proper medical advice."),
    ("disclaimer", .str "Educational purposes only - not medical advice")]

/-- `_parse_llm_json_output` from `healthcare-backend/app.py`.  `.error`
models an exception escaping the function (empty output, or a
`JSONDecodeError` from the final parse attempts). -/
def parse_llm_json_output (jsonParse : String → Option JVal) (text : String) :
    Except String JVal :=
  let cleaned := pyStrip text
  if cleaned = "" then .error "Empty model output"
  else if hasSubstr "```json" cleaned then
    match jsonParse (pyStrip (pySplitFirst "```" (pySplitRest "```json" cleaned))) with
    | some v => .ok v
    | none => .error "model output is not valid JSON"
  else if hasSubstr "```" cleaned then
    match jsonParse (pyStrip (pySplitFirst "```" (pySplitRest "```" cleaned))) with
    | some v => .ok v
    | none => .error "model output is not valid JSON"
  else
    let l := cleaned.data
    let braceTry : Option JVal :=
      if ('\x7b' ∈ l) ∧ ('\x7d' ∈ l) then
        let start := l.findIdx (fun c => c = '\x7b')
        let stop := l.length - 1 - (l.reverse.findIdx (fun c => c = '\x7d'))
        if start < stop then jsonParse ⟨(l.drop start).take (stop + 1 - start)⟩
        else none
      else none
    match braceTry with
    | some v => .ok v
    | none =>
      match jsonParse cleaned with
      | some v => .ok v
      | none => .error "model output is not valid JSON"

/-- The Gemini 200-path fence-stripping parse (identical in both handler
revisions up to the fallback value): only a JSON decode failure downgrades
to `fallbackV`. -/
def gemini_parse (jsonParse : String → Option JVal) (fallbackV : JVal)
    (content : String) : JVal :=
  let cleaned := pyStrip content
  let parsed : Option JVal :=
    if hasSubstr "```json" cleaned then
      jsonParse (pyStrip
        (pySplitFirst "```" ((cleaned.splitOn "```json").getD 1 "")))
    else if hasSubstr "```" cleaned then
      jsonParse (pyStrip
        (pySplitFirst "```" ((cleaned.splitOn "```").getD 1 "")))
    else jsonParse cleaned
  match parsed with
  | some v => v
  | none => fallbackV

/-- `_extract_gemini_text` from `healthcare-backend/app.py`.  `.error`
models any exception raised while digging into the envelope (the two
explicit `ValueError`s, or attribute/type errors on unexpected shapes). -/
def extract_gemini_text (j : JVal) : Except String String :=
  match j with
  | .obj fs =>
    let cands :=
      match objGet fs "candidates" with
      | some v => if jFalsy v then JVal.arr [] else v
      | none => JVal.arr []
    if jFalsy cands then .error "Gemini returned no candidates"
    else
      match cands with
      | .arr (c0 :: _) =>
        match (if jFalsy c0 then JVal.obj [] else c0) with
        | .obj cfs =>
          let co :=
            match objGet cfs "content" with
            | some v => if jFalsy v then JVal.obj [] else v
            | none => JVal.obj []
          match co with
          | .obj cofs =>
            let parts :=
              match objGet cofs "parts" with
              | some v => if jFalsy v then JVal.arr [] else v
              | none => JVal.arr []
            match parts with
            | .arr ps =>
              let texts := ps.filterMap (fun part =>
                match part with
                | .obj pfs =>
                  match objGet pfs "text" with
                  | some (.str s) => some s
                  | _ => none
                | _ => none)
              if texts.isEmpty then .error "Gemini candidate contained no text"
              else .ok (String.intercalate "\n" texts)
            | .str _ => .error "Gemini candidate contained no text"
            | _ => .error "parts is not iterable"
          | _ => .error "content has no attribute get"
        | _ => .error "candidate has no attribute get"
      | _ => .error "candidates is not indexable"
  | _ => .error "response has no attribute get"

/-! ## The `/analyze` request handlers -/

/-- `_fallback_result` from `healthcare-backend/app.py`. -/
def fallback_result (reason : String) : JVal :=
  .obj [("error", .str "AI analysis temporarily unavailable"),
    ("code", .str "LLM_FALLBACK"),
    ("reason", .str reason),
    ("conditions", .arr [.str "AI analysis temporarily unavailable"]),
    ("recommendations",
     .str ("We couldn\x27t run the AI analysis right now (service is busy). " ++
       "If symptoms are severe, worsening, or include chest pain, trouble " ++
       "breathing, confusion, fainting, or signs of stroke, seek urgent " ++
       "medical care. Otherwise, consider rest, hydration, and monitoring " ++
       "your symptoms, and consult a licensed medical professional for " ++
       "proper evaluation.")),
    ("disclaimer",
     .str ("Educational use only. Not a diagnosis. (" ++ reason ++ ") " ++
       "Always consult a qualified medical professional."))]

/-- `hf_key and hf_model` truthiness at line 486. -/
def hfConfigured (env : Env) : Bool :=
  (match env.hfKey with | some k => k ≠ "" | none => false) &&
  (match env.hfModel with | some m => m ≠ "" | none => false)

/-- `gemini_key` truthiness at line 599. -/
def geminiConfigured (env : Env) : Bool :=
  match env.geminiKey with | some k => k ≠ "" | none => false

/-- The model candidates the handler passes to `_post_gemini_try_targets`. -/
def gemModelsArg (env : Env) : List String :=
  [env.geminiModel, "gemini-1.5-flash", "gemini-1.5-flash-latest",
   "gemini-2.0-flash"]

/-- The base-URL candidates the handler passes to
`_post_gemini_try_targets`. -/
def gemBasesArg (env : Env) : List String :=
  [env.geminiBase, "https://generativelanguage.googleapis.com/v1",
   "https://generativelanguage.googleapis.com/v1beta"]

/-- `str(exc)` for the two `PermissionError`s of the resilience loop. -/
def permError_msg (status : Nat) : String :=
  if status = 401 then "Unauthorized: invalid HF_API_KEY"
  else ("Forbidden: token may not have access to this model " ++
    "(gated/private) or lacks inference permissions")

/-- The external world one request sees: request body (`None` when
`get_json(silent=True)` yields no object), cache collaborators, `json.loads`
(`none` = raised decode error), a message for `response.json()` failures,
and the two provider oracles. -/
structure World where
  body : Option JVal
  cache : CacheWorld
  jsonParse : String → Option JVal
  jsonErrMsg : String
  hf : HfWorld
  gem : GOracle

/-- The Hugging Face branch of `analyze_symptoms` (lines 486-595); returns
the handler outcome (`.error` = exception escaping to the outer handler)
and the number of outbound provider calls. -/
def hfBranch (env : Env) (w : World) : Except String (Nat × JVal) × Nat :=
  let res := post_hf_with_resilience env w.hf
  match res.outcome with
  | .error st =>
    (.ok (500, .obj [
      ("error", .str ("LLM provider authentication failed. " ++
        "Backend is not configured correctly.")),
      ("code", .str "LLM_AUTH_ERROR"),
      ("llm_status", .num 401),
      ("llm_message", .str (permError_msg st)),
      ("conditions", .arr []),
      ("recommendations", .str ("Verify HF_API_KEY and HF_MODEL_NAME are " ++
        "set and the token can access the model.")),
      ("disclaimer", .str "Please contact the administrator")]), res.calls)
  | .ok resp =>
    if resp.status = 200 then
      match resp.jsonBody with
      | none => (.error w.jsonErrMsg, res.calls)
      | some j =>
        match extract_hf_text j with
        | none =>
          (.error "Unexpected Hugging Face router response format", res.calls)
        | some text =>
          match parse_llm_json_output w.jsonParse text with
          | .ok v => (.ok (200, v), res.calls)
          | .error _ => (.ok (200, canned_result), res.calls)
    else if resp.status = 429 then
      if env.returnFallbackOnError then
        (.ok (503, fallback_result "AI provider rate limit"), res.calls)
      else
        (.ok (503, .obj [
          ("error", .str "LLM provider rate limit. Please try again later."),
          ("code", .str "LLM_RATE_LIMIT"),
          ("llm_status", .num 429),
          ("conditions", .arr []),
          ("recommendations", .str "Try again in a few minutes."),
          ("disclaimer", .str "Please try again later")]), res.calls)
    else if resp.status = 401 ∨ resp.status = 403 then
      (.ok (500, .obj [
        ("error", .str ("LLM provider authentication failed. " ++
          "Backend is not configured correctly.")),
        ("code", .str "LLM_AUTH_ERROR"),
        ("llm_status", .num (resp.status : ℚ)),
        ("conditions", .arr []),
        ("recommendations", .str ("Verify HF_API_KEY is correct and the " ++
          "token can access HF_MODEL_NAME.")),
        ("disclaimer", .str "Please contact the administrator")]), res.calls)
    else if env.returnFallbackOnError then
      (.ok (503, fallback_result ("AI provider error " ++ toString resp.status)),
        res.calls)
    else
      (.ok (503, .obj [
        ("error", .str "LLM service error"),
        ("code", .str "LLM_ERROR"),
        ("llm_status", .num (resp.status : ℚ)),
        ("conditions", .arr []),
        ("recommendations", .str "AI service temporarily unavailable"),
        ("disclaimer", .str "Please try again later")]), res.calls)

/-- The provider-error extraction of the Gemini branch (lines 694-702):
`(llm_provider_status, llm_message)`, `null` when absent or on any raised
attribute error. -/
def gemExtractProviderErr (b : Option JVal) : JVal × JVal :=
  match b with
  | some (.obj fs) =>
    let pe :=
      match objGet fs "error" with
      | some v => if jFalsy v then JVal.obj [] else v
      | none => JVal.obj []
    match pe with
    | .obj pfs =>
      ((objGet pfs "status").getD .null, (objGet pfs "message").getD .null)
    | _ => (.null, .null)
  | _ => (.null, .null)

/-- The Gemini branch of `analyze_symptoms` (lines 597-758); returns the
handler outcome and the outbound-call trace. -/
def geminiBranch (env : Env) (w : World) :
    Except String (Nat × JVal) × GTrace :=
  if ¬ geminiConfigured env then
    if env.returnFallbackOnError then
      (.ok (500, fallback_result
        "AI provider not configured (missing HF_API_KEY/HF_MODEL_NAME)"), [])
    else
      (.ok (500, .obj [
        ("error", .str "LLM provider not configured"),
        ("code", .str "LLM_NOT_CONFIGURED"),
        ("conditions", .arr []),
        ("recommendations", .str "Service configuration error"),
        ("disclaimer", .str "Please contact administrator")]), [])
  else
    let s := post_gemini_try_targets w.gem env 0 (gemModelsArg env)
      (gemBasesArg env)
    let resp := s.1
    let tr := s.2.2.2.2
    if resp.status = 200 then
      match resp.jsonBody with
      | none => (.error w.jsonErrMsg, tr)
      | some j =>
        match extract_gemini_text j with
        | .error m => (.error m, tr)
        | .ok content =>
          (.ok (200, gemini_parse w.jsonParse canned_result content), tr)
    else
      let pm := gemExtractProviderErr resp.jsonBody
      if resp.status = 429 then
        if env.returnFallbackOnError then
          (.ok (503, fallback_result
            "AI provider rate limit or quota exceeded"), tr)
        else
          (.ok (503, .obj [
            ("error", .str ("LLM provider rate limit or quota exceeded. " ++
              "Please try again later.")),
            ("code", .str "LLM_RATE_LIMIT"),
            ("llm_status", .num (resp.status : ℚ)),
            ("llm_provider_status", pm.1),
            ("llm_message", pm.2),
            ("conditions", .arr []),
            ("recommendations", .str ("Try again in a few minutes. If the " ++
              "issue persists, check your Google AI/Gemini billing and " ++
              "quota limits.")),
            ("disclaimer", .str "Please try again later")]), tr)
      else if resp.status = 401 ∨ resp.status = 403 then
        (.ok (500, .obj [
          ("error", .str ("LLM provider authentication failed. " ++
            "Backend is not configured correctly.")),
          ("code", .str "LLM_AUTH_ERROR"),
          ("llm_status", .num (resp.status : ℚ)),
          ("llm_provider_status", pm.1),
          ("llm_message", pm.2),
          ("conditions", .arr []),
          ("recommendations", .str ("Verify GEMINI_API_KEY is set correctly " ++
            "in the backend environment.")),
          ("disclaimer", .str "Please contact the administrator")]), tr)
      else if env.returnFallbackOnError then
        (.ok (503, fallback_result
          ("AI provider error " ++ toString resp.status)), tr)
      else
        (.ok (503, .obj [
          ("error", .str "LLM service error"),
          ("code", .str "LLM_ERROR"),
          ("llm_status", .num (resp.status : ℚ)),
          ("llm_provider_status", pm.1),
          ("llm_message", pm.2),
          ("conditions", .arr []),
          ("recommendations", .str "AI service temporarily unavailable"),
          ("disclaimer", .str "Please try again later")]), tr)

/-- The core of `analyze_symptoms` in `healthcare-backend/app.py`, before
the outer exception handler: outcome, outbound HF calls, Gemini call
trace. -/
def analyzeCore (env : Env) (w : World) :
    Except String (Nat × JVal) × Nat × GTrace :=
  match w.body with
  | none => (.ok (400, .obj [("error", .str "Invalid or missing JSON body")]),
      0, [])
  | some b =>
    match b with
    | .obj fs =>
      let symptomsVal := (objGet fs "symptoms").getD (.str "")
      let symptoms :=
        match symptomsVal with
        | .str s => pyStrip s
        | _ => ""
      if symptoms = "" then
        (.ok (400, .obj [("error", .str "No symptoms provided")]), 0, [])
      else
        match try_get_seeded_result env w.cache w.jsonParse symptoms with
        | some seeded => (.ok (200, seeded), 0, [])
        | none =>
          if hfConfigured env then
            let r := hfBranch env w
            (r.1, r.2, [])
          else
            let r := geminiBranch env w
            (r.1, 0, r.2)
    | _ => (.ok (400, .obj [("error", .str "Invalid or missing JSON body")]),
        0, [])

/-- One handled request: status, JSON body, outbound HF calls, Gemini call
trace. -/
structure AOut where
  status : Nat
  body : JVal
  hfCalls : Nat
  gemTrace : GTrace

/-- `analyze_symptoms` from `healthcare-backend/app.py`: the core wrapped in
the outer `except Exception` returning a generic 500. -/
def analyze_symptoms (env : Env) (w : World) : AOut :=
  match analyzeCore env w with
  | (.ok (st, b), hc, gt) => ⟨st, b, hc, gt⟩
  | (.error msg, hc, gt) =>
    ⟨500, .obj [("error", .str ("Analysis failed: " ++ msg)),
      ("conditions", .arr []),
      ("recommendations", .str "Please try again later"),
      ("disclaimer", .str "Service temporarily unavailable")], hc, gt⟩

/-! ### The legacy handler (`app.py` at the repository root) -/

/-- The legacy handler's world: `request.get_json()` may raise (malformed
body, `.error`), one outbound Gemini call, and `json.loads`. -/
structure LegacyWorld where
  body : Except Unit (Option JVal)
  gemOne : GResp
  jsonParse : String → Option JVal

/-- The legacy canned `AnalysisResult` (wording differs from the
healthcare-backend one). -/
def legacy_canned : JVal :=
  .obj [("conditions", .arr [.str "Consult healthcare professional"]),
    ("recommendations",
     .str "Based on your symptoms, consult a doctor for proper medical advice."),
    ("disclaimer", .str "Educational purposes only - not medical advice")]

/-- The generic body of the legacy outer `except Exception` handler. -/
def legacy_outer (msg : String) : JVal :=
  .obj [("error", .str ("Analysis failed: " ++ msg)),
    ("conditions", .arr []),
    ("recommendations", .str "Please try again later"),
    ("disclaimer", .str "Service temporarily unavailable")]

/-- The legacy strict extraction
`ai_response["candidates"][0]["content"]["parts"][0]["text"]` (plus the
`.strip()` that requires a string); `none` models any raised
`KeyError`/`IndexError`/`AttributeError`. -/
def legacy_extract (j : JVal) : Option String :=
  match j with
  | .obj fs =>
    match objGet fs "candidates" with
    | some (.arr (c0 :: _)) =>
      match c0 with
      | .obj cfs =>
        match objGet cfs "content" with
        | some (.obj cofs) =>
          match objGet cofs "parts" with
          | some (.arr (p0 :: _)) =>
            match p0 with
            | .obj pfs =>
              match objGet pfs "text" with
              | some (.str s) => some s
              | _ => none
            | _ => none
          | _ => none
        | _ => none
      | _ => none
    | _ => none
  | _ => none

/-- `analyze_symptoms` from the legacy root `app.py`: status, body,
outbound calls. -/
def legacy_analyze (geminiKey : Option String) (lw : LegacyWorld) :
    Nat × JVal × Nat :=
  match lw.body with
  | .error _ => (500, legacy_outer "request body is not valid JSON", 0)
  | .ok bodyOpt =>
    let d := bodyOpt.getD .null
    if jFalsy d then (400, .obj [("error", .str "No JSON data received")], 0)
    else
      match d with
      | .obj fs =>
        match (objGet fs "symptoms").getD (.str "") with
        | .str s =>
          let symptoms := pyStrip s
          if symptoms = "" then
            (400, .obj [("error", .str "No symptoms provided")], 0)
          else if (match geminiKey with
              | some k => k == ""
              | none => true) then
            (500, .obj [("error", .str "Gemini API key not configured"),
              ("conditions", .arr []),
              ("recommendations", .str "Service configuration error"),
              ("disclaimer", .str "Please contact administrator")], 0)
          else
            let r := lw.gemOne
            if r.status = 200 then
              match r.jsonBody with
              | none => (500, legacy_outer "response body is not valid JSON", 1)
              | some j =>
                match legacy_extract j with
                | none => (500, legacy_outer "unexpected response shape", 1)
                | some text =>
                  (200, gemini_parse lw.jsonParse legacy_canned text, 1)
            else
              (500, .obj [
                ("error", .str ("Gemini API error: " ++ toString r.status)),
                ("conditions", .arr []),
                ("recommendations", .str "AI service temporarily unavailable"),
                ("disclaimer", .str "Please try again later")], 1)
        | _ =>
          -- non-string symptoms: `.strip()` raises AttributeError
          (500, legacy_outer "symptoms value has no attribute strip", 0)
      | _ =>
        -- truthy non-dict body: `.get` raises AttributeError
        (500, legacy_outer "request body has no attribute get", 0)

/-- Key-presence test on a JSON object. -/
def hasKey (v : JVal) (key : String) : Bool :=
  match v with
  | .obj fs => (objGet fs key).isSome
  | _ => false

/-- Presence of the three `AnalysisResult` keys. -/
def hasThreeKeys (v : JVal) : Bool :=
  hasKey v "conditions" && hasKey v "recommendations" && hasKey v "disclaimer"

/-- The ordered `(model, base)` target list the 404 fallback walks: all model
candidates under the first base, then under the next, in order. -/
def gemTargets (B M : List String) : GTrace :=
  B.flatMap (fun bb => M.map (fun m => (some m, some bb)))

/-- First model candidate the Gemini branch would try. -/
def gemFirstModel (env : Env) : String :=
  (unique_nonempty_strings (gemModelsArg env)).headD ""

/-- First base-URL candidate the Gemini branch would try. -/
def gemFirstBase (env : Env) : String :=
  (gemBaseCands env (gemBasesArg env)).headD ""

/-! ### Facts about the target list -/

theorem gemTargets_length (B M : List String) :
    (gemTargets B M).length = B.length * M.length := by
  induction B with
  | nil => simp [gemTargets]
  | cons b B ih =>
    simp only [gemTargets, List.flatMap_cons, List.length_append,
      List.length_map, List.length_cons] at *
    rw [ih]
    ring

theorem mem_gemTargets {B M : List String} {x : Option String × Option String} :
    x ∈ gemTargets B M ↔ ∃ bb ∈ B, ∃ m ∈ M, x = (some m, some bb) := by
  simp [gemTargets, List.mem_flatMap, List.mem_map, eq_comm]

theorem gemTargets_nodup (B M : List String) (hB : B.Nodup) (hM : M.Nodup) :
    (gemTargets B M).Nodup := by
  induction B with
  | nil => simp [gemTargets]
  | cons b B ih =>
    simp only [gemTargets, List.flatMap_cons]
    refine List.Nodup.append ?_ (ih hB.of_cons) ?_
    · refine hM.map ?_
      intro x y hxy
      simpa using hxy
    · intro x hx1 hx2
      simp only [List.mem_map] at hx1
      obtain ⟨m, _, rfl⟩ := hx1
      rw [show (B.flatMap fun bb => M.map fun m => (some m, some bb))
          = gemTargets B M from rfl] at hx2
      obtain ⟨bb, hbb, m2, _, hx⟩ := mem_gemTargets.mp hx2
      have hb : b = bb := by simpa using congrArg Prod.snd hx
      exact (List.nodup_cons.mp hB).1 (hb ▸ hbb)

theorem gemTargets_ne_nil (b0 : String) (brest : List String) (m0 : String)
    (mrest : List String) : gemTargets (b0 :: brest) (m0 :: mrest) ≠ [] := by
  apply List.ne_nil_of_length_pos
  rw [gemTargets_length]
  simp

theorem gemTargets_getLast (b0 : String) (brest : List String) (m0 : String)
    (mrest : List String) :
    (gemTargets (b0 :: brest) (m0 :: mrest)).getLast? =
      some (some (mrest.getLastD m0), some (brest.getLastD b0)) := by
  induction brest generalizing b0 with
  | nil =>
    simp only [gemTargets, List.flatMap_cons, List.flatMap_nil,
      List.append_nil, List.getLast?_map, List.getLast?_cons,
      Option.map_some']
    rw [← List.getLastD_eq_getLast?]
    rfl
  | cons b2 brest2 ih =>
    rw [show gemTargets (b0 :: b2 :: brest2) (m0 :: mrest)
        = ((m0 :: mrest).map (fun m => (some m, some b0))) ++
          gemTargets (b2 :: brest2) (m0 :: mrest) from rfl]
    rw [List.getLast?_append_of_ne_nil _ (gemTargets_ne_nil b2 brest2 m0 mrest)]
    rw [ih b2, List.getLastD_cons]

theorem gemBaseCands_nodup (env : Env) (baseUrls : List String) :
    (gemBaseCands env baseUrls).Nodup := by
  rcases h : unique_nonempty_strings baseUrls with _ | ⟨b, rest⟩
  · have he : gemBaseCands env baseUrls = [env.geminiBase] := by
      unfold gemBaseCands; rw [h]
    rw [he]; simp
  · have he : gemBaseCands env baseUrls = b :: rest := by
      unfold gemBaseCands; rw [h]
    rw [he, ← h]
    exact unique_nonempty_strings_nodup baseUrls

theorem uniq_gemModelsArg_ne_nil (env : Env) :
    unique_nonempty_strings (gemModelsArg env) ≠ [] := by
  unfold unique_nonempty_strings gemModelsArg
  rw [unique_nonempty_go_cons]
  by_cases h : pyStrip env.geminiModel ≠ "" ∧
      pyStrip env.geminiModel ∉ ([] : List String)
  · rw [if_pos h]; simp
  · rw [if_neg h]
    -- the remaining constant candidates are nonblank and distinct
    intro hcontra
    rw [show unique_nonempty_go [] ["gemini-1.5-flash", "gemini-1.5-flash-latest",
      "gemini-2.0-flash"] = ["gemini-1.5-flash", "gemini-1.5-flash-latest",
      "gemini-2.0-flash"] from by decide] at hcontra
    simp at hcontra

/-! ## Concrete fixtures (used by witnesses and counterexamples) -/

/-- Zero-latency call clock. -/
def latZero : Nat → {q : ℚ // 0 ≤ q} := fun _ => ⟨0, le_refl 0⟩

/-- Zero jitter source. -/
def fracZero : Nat → {q : ℚ // 0 ≤ q ∧ q < 1} :=
  fun _ => ⟨0, by norm_num⟩

/-- A representative environment: soft-fallback on, HF configured, Gemini
configured, cache disabled, default numeric settings. -/
def envFix : Env where
  returnFallbackOnError := true
  hfKey := some "k"
  hfModel := some "m"
  geminiKey := some "g"
  geminiModel := "gemini-1.5-flash"
  geminiBase := "https://generativelanguage.googleapis.com/v1"
  seedEnabled := false
  seedPre := "symptom-checker:seed"
  hfMaxRetries := 3
  hfMinBackoff := 0.4
  hfMaxBackoff := 8
  hfWaitForModelMs := 25000

/-- The same environment with Hugging Face unconfigured (Gemini branch). -/
def envFixGem : Env := { envFix with hfKey := none }

/-- An HF world answering a fixed response on every call. -/
def hfWorldConst (resp : HFResp) : HfWorld where
  resp := fun _ => resp
  lat := latZero
  frac := fracZero

/-- An HF world answering `first` on call 0 and `later` afterwards. -/
def hfWorldThen (first later : HFResp) : HfWorld where
  resp := fun k => if k = 0 then first else later
  lat := latZero
  frac := fracZero

/-- A cache world with no store available. -/
def cacheNone : CacheWorld where
  redisImportOk := false
  fetch := fun _ => .ok none

/-- A full request world from a body and an HF oracle; the cache is absent,
`json.loads` always fails, the Gemini provider always answers 500. -/
def worldOf (body : Option JVal) (hfr : HfWorld) : World where
  body := body
  cache := cacheNone
  jsonParse := fun _ => none
  jsonErrMsg := "response body is not valid JSON"
  hf := hfr
  gem := fun _ _ _ => ⟨500, none⟩

/-- A 200 response whose JSON body is an empty object: text extraction
fails on it. -/
def resp200Empty : HFResp := ⟨200, true, some (.obj []), none⟩

/-- A 401 response. -/
def resp401 : HFResp := ⟨401, true, some (.obj []), none⟩

/-- A 429 response carrying `retry-after: 100`. -/
def resp429Hint : HFResp := ⟨429, true, some (.obj []), some "100"⟩

/-- A request body with nonempty symptoms. -/
def bodyFever : JVal := .obj [("symptoms", .str " fever ")]

/-! ## Claim theorems -/

/-- C8: `_normalize_symptoms` (trim, lower-case, collapse whitespace runs) is
idempotent, and `_redis_seed_key` is deterministic: it equals the configured
prefix joined by ":" to the hex SHA-256 digest of the UTF-8 encoding of the
normalized text, so it depends only on the prefix and the normalized text. -/
theorem C8_normalize_idempotent_and_key_deterministic :
    (∀ s, normalize_symptoms (normalize_symptoms s) = normalize_symptoms s) ∧
    (∀ pre s, redis_seed_key pre s =
      pre ++ ":" ++ sha256Hex (utf8Encode (normalize_symptoms s))) ∧
    (∀ pre s₁ s₂, normalize_symptoms s₁ = normalize_symptoms s₂ →
      redis_seed_key pre s₁ = redis_seed_key pre s₂) :=
  ⟨normalize_symptoms_idem, fun _ _ => rfl,
   fun pre s₁ s₂ h => by unfold redis_seed_key; rw [h]⟩

/-- C8 (instance): the two sides at concrete inputs. -/
theorem C8_witness_concrete :
    normalize_symptoms (normalize_symptoms "  FeVer,   sore  THROAT ")
      = normalize_symptoms "  FeVer,   sore  THROAT " ∧
    redis_seed_key "symptom-checker:seed" "flu  SYMPTOMS"
      = redis_seed_key "symptom-checker:seed" " flu symptoms " :=
  ⟨C8_normalize_idempotent_and_key_deterministic.1 _,
   C8_normalize_idempotent_and_key_deterministic.2.2 _ _ _ (by decide)⟩

/-- C10: `_unique_nonempty_strings` strips each entry, drops blank entries
and removes duplicates keeping only the first occurrence in order;
consequently the 404 fallback driver's model loop attempts each distinct
non-blank candidate at most once (its trace has no duplicates) even when the
configured list has duplicates or blanks. -/
theorem C10_unique_nonempty_strings_dedup :
    (∀ l, unique_nonempty_strings l =
      dedupFirstSpec ((l.map pyStrip).filter (fun s => s ≠ ""))) ∧
    (∀ (g : GOracle) (env : Env) (models : List String) (b : String)
       (m0 : String) (mrest : List String),
      unique_nonempty_strings models = m0 :: mrest →
      (∀ j mm, mm ∈ m0 :: mrest → (g j (some mm) (some b)).status = 404) →
      (post_gemini_try_models_with_base g env 0 models b).2.2.2.Nodup) := by
  refine ⟨unique_nonempty_strings_eq, ?_⟩
  intro g env models b m0 mrest hm h404
  rw [tmwb_all404 g env models b m0 mrest 0 hm h404]
  refine List.Nodup.map ?_ (hm ▸ unique_nonempty_strings_nodup models)
  intro x y hxy
  simpa using hxy

/-- C10 (instance): deduplication on a concrete list with blanks and
duplicates. -/
theorem C10_witness_concrete :
    unique_nonempty_strings [" a ", "", "b", "a", "  ", "b "] = ["a", "b"] ∧
    dedupFirstSpec (([" a ", "", "b", "a", "  ", "b "].map pyStrip).filter
      (fun s => s ≠ "")) = ["a", "b"] := by
  constructor
  · decide
  · rw [← C10_unique_nonempty_strings_dedup.1]
    decide

/-- C2: under an all-404 provider, `_post_gemini_try_targets` attempts each
`(model, base)` candidate exactly once, walking the ordered target list with
no repeats, and returns the response of the last candidate (the last
outbound call); and as soon as some candidate's response is non-404 the
driver stops with that response, attempting no later candidate. -/
theorem C2_gemini_404_fallback_driver :
    (∀ (g : GOracle) (env : Env) (models baseUrls : List String)
       (m0 : String) (mrest : List String) (b0 : String) (brest : List String),
      unique_nonempty_strings models = m0 :: mrest →
      gemBaseCands env baseUrls = b0 :: brest →
      (∀ j mo bo, (g j mo bo).status = 404) →
      (post_gemini_try_targets g env 0 models baseUrls).2.2.2.2
          = gemTargets (b0 :: brest) (m0 :: mrest) ∧
        (gemTargets (b0 :: brest) (m0 :: mrest)).Nodup ∧
        (post_gemini_try_targets g env 0 models baseUrls).2.2.2.1
          = (gemTargets (b0 :: brest) (m0 :: mrest)).length ∧
        (post_gemini_try_targets g env 0 models baseUrls).1
          = g ((gemTargets (b0 :: brest) (m0 :: mrest)).length - 1)
              (some (mrest.getLastD m0)) (some (brest.getLastD b0)) ∧
        (gemTargets (b0 :: brest) (m0 :: mrest)).getLast?
          = some (some (mrest.getLastD m0), some (brest.getLastD b0))) ∧
    (∀ (f : Option String → Option String → GResp) (env : Env)
       (models baseUrls : List String) (m0 : String) (mrest : List String)
       (Pb : List String) (bj : String) (restb : List String)
       (Pm : List String) (mj : String) (restm : List String),
      unique_nonempty_strings models = m0 :: mrest →
      gemBaseCands env baseUrls = Pb ++ bj :: restb →
      m0 :: mrest = Pm ++ mj :: restm →
      (∀ bb ∈ Pb, ∀ mm ∈ m0 :: mrest, (f (some mm) (some bb)).status = 404) →
      (∀ mm ∈ Pm, (f (some mm) (some bj)).status = 404) →
      (f (some mj) (some bj)).status ≠ 404 →
      (post_gemini_try_targets (fun _ x y => f x y) env 0 models baseUrls).1
          = f (some mj) (some bj) ∧
        (post_gemini_try_targets (fun _ x y => f x y) env 0 models baseUrls).2.2.2.2
          = gemTargets Pb (m0 :: mrest) ++
            (Pm.map (fun m => (some m, some bj)) ++
             List.replicate
               (if gTransient (f (some mj) (some bj)).status then 3 else 1)
               (some mj, some bj))) := by
  constructor
  · intro g env models baseUrls m0 mrest b0 brest hm hb h404
    rw [try_targets_eq g env 0 models baseUrls b0 brest hb]
    rw [goBases_all404 g env models m0 mrest hm brest b0 0
      (fun j mm bb hmm _ => h404 j (some mm) (some bb))]
    have hlen : (gemTargets (b0 :: brest) (m0 :: mrest)).length
        = (brest.length + 1) * (mrest.length + 1) := by
      rw [gemTargets_length]; simp [List.length_cons]
    refine ⟨rfl, gemTargets_nodup _ _
        (hb ▸ gemBaseCands_nodup env baseUrls)
        (hm ▸ unique_nonempty_strings_nodup models), ?_, ?_,
      gemTargets_getLast b0 brest m0 mrest⟩
    · simp [hlen]
    · rw [hlen]
      have hmul : (brest.length + 1) * (mrest.length + 1)
          = brest.length * (mrest.length + 1) + mrest.length + 1 := by ring
      have hsub : (brest.length + 1) * (mrest.length + 1) - 1
          = brest.length * (mrest.length + 1) + mrest.length := by omega
      rw [hsub]
      simp
  · intro f env models baseUrls m0 mrest Pb bj restb Pm mj restm hm hb hsplitm
      h404P h404m hstop
    rcases List.exists_cons_of_ne_nil (gemBaseCands_ne_nil env baseUrls)
      with ⟨b, rest, hcands⟩
    rw [try_targets_eq _ env 0 models baseUrls b rest hcands]
    rw [goBases_stop f env models m0 mrest Pm mj restm hm hsplitm Pb bj restb
      b rest 0 (by rw [← hcands, hb]) h404P h404m hstop]
    exact ⟨rfl, rfl⟩

/-- C2 (instance): a concrete all-404 run attempts the six candidates in
order, and a concrete run whose second base answers 200 stops there. -/
theorem C2_witness_concrete :
    (post_gemini_try_targets (fun _ _ _ => ⟨404, none⟩) envFix 0
        ["m1", "m2"] ["b1", "b2"]).2.2.2.2
      = [(some "m1", some "b1"), (some "m2", some "b1"),
         (some "m1", some "b2"), (some "m2", some "b2")] ∧
    (post_gemini_try_targets
        (fun _ _ bo => if bo = some "b2" then ⟨200, none⟩ else ⟨404, none⟩)
        envFix 0 ["m1", "m2"] ["b1", "b2"]).2.2.2.2
      = [(some "m1", some "b1"), (some "m2", some "b1"),
         (some "m1", some "b2")] := by
  constructor
  · have h := C2_gemini_404_fallback_driver.1 (fun _ _ _ => ⟨404, none⟩)
      envFix ["m1", "m2"] ["b1", "b2"] "m1" ["m2"] "b1" ["b2"]
      (by decide) (by decide) (fun _ _ _ => rfl)
    rw [h.1]
    decide
  · have h := C2_gemini_404_fallback_driver.2
      (fun _ bo => if bo = some "b2" then ⟨200, none⟩ else ⟨404, none⟩)
      envFix ["m1", "m2"] ["b1", "b2"] "m1" ["m2"] ["b1"] "b2" []
      [] "m1" ["m2"] (by decide) (by decide) rfl
      (by intro bb hbb mm _
          simp only [List.mem_singleton] at hbb
          subst hbb
          show (if (some "b1" : Option String) = some "b2"
              then ({ status := 200, jsonBody := none } : GResp)
              else { status := 404, jsonBody := none }).status = 404
          rw [if_neg (by decide)])
      (by intro mm hmm; simp at hmm) (by decide)
    rw [h.2]
    decide

/-- C7: for every provider-response sequence and configuration, the
resilience loop of `_post_hf_with_resilience` completes within
`hfCallBound` iterations — a bound computed from the clamped retry count and
maximum model-wait budget (whose poll interval is at least 400 ms) — and
returns the last response, with the outbound-call count within the bound. -/
theorem C7_resilience_loop_terminates_bounded (env : Env) (w : HfWorld) :
    ∃ r : HfRes,
      hfStepLoop w (hfMr env) (hfMinB env) (hfMaxB env) (hfWm env)
        (hfCallBound (hfMr env) (hfWm env)) 0 0 = some r ∧
      post_hf_with_resilience env w = r ∧
      r.calls ≤ hfCallBound (hfMr env) (hfWm env) := by
  obtain ⟨r, hr⟩ := Option.isSome_iff_exists.mp (hfStepLoop_isSome env w)
  refine ⟨r, hr, ?_, ?_⟩
  · unfold post_hf_with_resilience
    simp [hr]
  · have := hfStepLoop_calls_le w (hfMr env) (hfMinB env) (hfMaxB env)
      (hfWm env) (hfCallBound (hfMr env) (hfWm env)) 0 0 r hr
    omega

/-- A 429 response carrying a parseable hint, within the retry budget: the
iteration sleeps exactly the hint, as-is. -/
lemma hfStep_429_hint (w : HfWorld) (mr : Nat) (minB maxB : ℚ) (wm : Nat)
    (a : Nat) (t q : ℚ) (hs : (w.resp a).status = 429)
    (hp : parse_retry_after (w.resp a) = some q)
    (hle : ¬ a + 1 > mr + 1) :
    hfStep w mr minB maxB wm a t = .next q (t + (w.lat a).val + q) := by
  simp only [hfStep]
  rw [if_neg (by rw [hs]; decide), if_pos hs, if_neg hle]
  rw [show hf429Delay (w.resp a) minB maxB (w.frac a).val (a + 1) = q from by
    unfold hf429Delay; rw [hp]]

/-- C5 (amended): for every 429 response carrying a parseable non-negative
retry-after value (within the retry budget), the delay slept before the next
attempt equals that provider-supplied hint, preferred over the computed
exponential-backoff delay; the hint is used as-is and is NOT clamped to the
configured maximum backoff.  In particular the first sleep of a run whose
first response is such a 429 is exactly the hint. -/
theorem C5_retry_after_hint_preferred_unclamped :
    (∀ (w : HfWorld) (mr : Nat) (minB maxB : ℚ) (wm : Nat) (a : Nat)
       (t q : ℚ),
      (w.resp a).status = 429 → parse_retry_after (w.resp a) = some q →
      ¬ a + 1 > mr + 1 →
      hfStep w mr minB maxB wm a t = .next q (t + (w.lat a).val + q)) ∧
    (∀ (env : Env) (w : HfWorld) (q : ℚ),
      (w.resp 0).status = 429 → parse_retry_after (w.resp 0) = some q →
      (post_hf_with_resilience env w).sleeps.head? = some q) := by
  refine ⟨hfStep_429_hint, ?_⟩
  intro env w q hs hp
  obtain ⟨r, hr⟩ := Option.isSome_iff_exists.mp (hfStepLoop_isSome env w)
  have hpost : post_hf_with_resilience env w = r := by
    unfold post_hf_with_resilience
    simp [hr]
  obtain ⟨F, hF⟩ : ∃ F, hfCallBound (hfMr env) (hfWm env) = F + 1 :=
    ⟨hfMr env + (hfWm env + 399) / 400 + 1, by unfold hfCallBound; omega⟩
  rw [hF] at hr
  rw [show hfStepLoop w (hfMr env) (hfMinB env) (hfMaxB env) (hfWm env)
      (F + 1) 0 0
      = (hfStepLoop w (hfMr env) (hfMinB env) (hfMaxB env) (hfWm env) F 1
          (0 + (w.lat 0).val + q)).map
        (fun r => ⟨r.outcome, r.calls, q :: r.sleeps⟩) from by
    rw [hfStepLoop, hfStep_429_hint w (hfMr env) (hfMinB env) (hfMaxB env)
      (hfWm env) 0 0 q hs hp (by omega)]] at hr
  rw [Option.map_eq_some'] at hr
  obtain ⟨r0, hr0, hrr⟩ := hr
  rw [hpost, ← hrr]
  rfl

/-- C5 (counterexample): with the maximum backoff clamped to 8 s, a first
response of 429 with retry-after 100 makes the loop sleep 100 s before the
next call: the hint exceeds, and is not clamped to, the configured maximum
backoff. -/
theorem C5_counterexample_hint_exceeds_max_backoff :
    (post_hf_with_resilience envFix
        (hfWorldThen resp429Hint resp200Empty)).sleeps = [100] ∧
    hfMaxB envFix = 8 ∧ ¬ ((100 : ℚ) ≤ hfMaxB envFix) := by
  refine ⟨rfl, ?_, ?_⟩
  · norm_num [hfMaxB, envFix, min_def, max_def]
  · norm_num [hfMaxB, envFix, min_def, max_def]

/-! ## C6: cache lookup -/

/-- A value accepted by `seedValidate` has the weak shape. -/
lemma seedValidate_shape (p v : JVal) (h : seedValidate p = some v) :
    hasWeakShape v = true := by
  unfold seedValidate at h
  split at h
  · split at h
    · rw [← Option.some_inj.mp h]
      rfl
    · exact absurd h (by simp)
  · exact absurd h (by simp)

/-- A value without the weak shape is rejected by `seedValidate`. -/
lemma seedValidate_none (p : JVal) (h : hasWeakShape p = false) :
    seedValidate p = none := by
  unfold seedValidate
  split
  · split
    · simp only [hasWeakShape] at h
      simp_all
    · rfl
  · rfl

/-- The fixed environment with seeding enabled. -/
def envSeed : Env := { envFix with seedEnabled := true }

/-- A cache world whose store answers every key with the raw string "x". -/
def cwStore : CacheWorld := ⟨true, fun _ => .ok (some "x")⟩

/-- A cached value whose conditions list holds a number, not a string. -/
def vBadConds : JVal :=
  .obj [("conditions", .arr [.num 1]), ("recommendations", .str "r"),
    ("disclaimer", .str "d")]

/-- A JSON parser returning that value for every input. -/
def jpBadConds : String → Option JVal := fun _ => some vBadConds

/-- Every cache hit satisfies the weak shape. -/
lemma seeded_some_shape (env : Env) (cw : CacheWorld)
    (jp : String → Option JVal) (s : String) (v : JVal)
    (h : try_get_seeded_result env cw jp s = some v) :
    hasWeakShape v = true := by
  unfold try_get_seeded_result at h
  split_ifs at h
  rcases hf : cw.fetch (redis_seed_key env.seedPre s) with e | o
  · rw [hf] at h
    exact absurd h (by simp)
  · rcases o with _ | raw
    · rw [hf] at h
      exact absurd h (by simp)
    · rw [hf] at h
      replace h : (if raw = "" then none
          else match jp raw with
            | none => none
            | some p => seedValidate p) = some v := h
      by_cases hraw : raw = ""
      · rw [if_pos hraw] at h
        exact absurd h (by simp)
      · rw [if_neg hraw] at h
        rcases hjp : jp raw with _ | p
        · rw [hjp] at h
          exact absurd h (by simp)
        · rw [hjp] at h
          replace h : seedValidate p = some v := h
          exact seedValidate_shape p v h

/-- C6 (amended): the cache lookup is total: a disabled feature flag, an
unavailable redis module, a store failure (any raised exception), a missing
or empty stored value, a JSON parse failure, or a stored value failing the
shape check all yield a miss (`none`); and every non-miss value satisfies
the weak AnalysisResult shape — `conditions` a JSON list, `recommendations`
and `disclaimer` strings — but the element types of `conditions` are NOT
checked. -/
theorem C6_cache_lookup_total_weak_shape :
    (∀ env cw jp s, env.seedEnabled = false →
      try_get_seeded_result env cw jp s = none) ∧
    (∀ env cw jp s, cw.redisImportOk = false →
      try_get_seeded_result env cw jp s = none) ∧
    (∀ env cw jp s e, cw.fetch (redis_seed_key env.seedPre s) = .error e →
      try_get_seeded_result env cw jp s = none) ∧
    (∀ env cw jp s, cw.fetch (redis_seed_key env.seedPre s) = .ok none →
      try_get_seeded_result env cw jp s = none) ∧
    (∀ env cw jp s raw,
      cw.fetch (redis_seed_key env.seedPre s) = .ok (some raw) →
      jp raw = none → try_get_seeded_result env cw jp s = none) ∧
    (∀ env cw jp s raw p,
      cw.fetch (redis_seed_key env.seedPre s) = .ok (some raw) →
      jp raw = some p → hasWeakShape p = false →
      try_get_seeded_result env cw jp s = none) ∧
    (∀ env cw jp s v, try_get_seeded_result env cw jp s = some v →
      hasWeakShape v = true) := by
  refine ⟨?_, ?_, ?_, ?_, ?_, ?_, ?_⟩
  · intro env cw jp s h
    simp [try_get_seeded_result, h]
  · intro env cw jp s h
    simp [try_get_seeded_result, h]
  · intro env cw jp s e h
    unfold try_get_seeded_result
    split_ifs
    all_goals first
    | rfl
    | rw [h]
  · intro env cw jp s h
    unfold try_get_seeded_result
    split_ifs
    all_goals first
    | rfl
    | rw [h]
  · intro env cw jp s raw hf hjp
    unfold try_get_seeded_result
    split_ifs
    all_goals first
    | rfl
    | (rw [hf]
       by_cases hraw : raw = ""
       · simp [hraw]
       · simp [hraw, hjp])
  · intro env cw jp s raw p hf hjp hshape
    unfold try_get_seeded_result
    split_ifs
    all_goals first
    | rfl
    | (rw [hf]
       by_cases hraw : raw = ""
       · simp [hraw]
       · simp [hraw, hjp, seedValidate_none p hshape])
  · intro env cw jp s v h
    exact seeded_some_shape env cw jp s v h

/-- C6 (counterexample): a cached object whose `conditions` list holds a
number is returned as a hit even though its elements are not all strings:
a stored value need not satisfy the AnalysisResult shape exactly to be
returned. -/
theorem C6_counterexample_conditions_not_strings :
    try_get_seeded_result envSeed cwStore jpBadConds "fever" = some vBadConds ∧
    condsAllStrings vBadConds = false := ⟨rfl, rfl⟩

/-! ## C3: 200-envelope handling -/

/-- C3 (amended): for a 200 provider envelope, JSON-parse failures of the
extracted model text are fully absorbed — the handler returns 200 with the
canned result instead — but text extraction itself runs OUTSIDE that
try/except: an envelope from which no text can be extracted (or whose body
is not JSON at all) raises past the normalizer to the outer handler, which
turns the request into a 500, not a 200. -/
theorem C3_parse_absorbed_extraction_escapes :
    (∀ (env : Env) (w : World) (resp : HFResp) (j : JVal) (text : String)
       (v : JVal),
      (post_hf_with_resilience env w.hf).outcome = .ok resp →
      resp.status = 200 → resp.jsonBody = some j →
      extract_hf_text j = some text →
      parse_llm_json_output w.jsonParse text = .ok v →
      (hfBranch env w).1 = .ok (200, v)) ∧
    (∀ (env : Env) (w : World) (resp : HFResp) (j : JVal) (text : String)
       (e : String),
      (post_hf_with_resilience env w.hf).outcome = .ok resp →
      resp.status = 200 → resp.jsonBody = some j →
      extract_hf_text j = some text →
      parse_llm_json_output w.jsonParse text = .error e →
      (hfBranch env w).1 = .ok (200, canned_result)) ∧
    (∀ (env : Env) (w : World) (resp : HFResp) (j : JVal),
      (post_hf_with_resilience env w.hf).outcome = .ok resp →
      resp.status = 200 → resp.jsonBody = some j →
      extract_hf_text j = none →
      (hfBranch env w).1
        = .error "Unexpected Hugging Face router response format") ∧
    (∀ (env : Env) (w : World) (resp : HFResp),
      (post_hf_with_resilience env w.hf).outcome = .ok resp →
      resp.status = 200 → resp.jsonBody = none →
      (hfBranch env w).1 = .error w.jsonErrMsg) ∧
    (∀ (env : Env) (w : World) (m : String) (hc : Nat) (gt : GTrace),
      analyzeCore env w = (.error m, hc, gt) →
      (analyze_symptoms env w).status = 500 ∧
      (analyze_symptoms env w).body
        = .obj [("error", .str ("Analysis failed: " ++ m)),
            ("conditions", .arr []),
            ("recommendations", .str "Please try again later"),
            ("disclaimer", .str "Service temporarily unavailable")]) := by
  refine ⟨?_, ?_, ?_, ?_, ?_⟩
  · intro env w resp j text v hres h200 hjson hext hparse
    simp [hfBranch, hres, h200, hjson, hext, hparse]
  · intro env w resp j text e hres h200 hjson hext hparse
    simp [hfBranch, hres, h200, hjson, hext, hparse]
  · intro env w resp j hres h200 hjson hext
    simp [hfBranch, hres, h200, hjson, hext]
  · intro env w resp hres h200 hjson
    simp [hfBranch, hres, h200, hjson]
  · intro env w m hc gt h
    exact ⟨by simp [analyze_symptoms, h], by simp [analyze_symptoms, h]⟩

/-- The request world of the C3 counterexample: valid symptoms body, every
HF call answering the empty-object 200 envelope. -/
def wC3 : World := worldOf (some bodyFever) (hfWorldConst resp200Empty)

/-- C3 (counterexample): a 200 envelope whose JSON body is an empty object
(no `choices`) makes the handler answer 500, not 200, after one outbound
call. -/
theorem C3_counterexample_bad_envelope_500 :
    ((hfWorldConst resp200Empty).resp 0).status = 200 ∧
    (analyze_symptoms envFix wC3).status = 500 ∧
    (analyze_symptoms envFix wC3).hfCalls = 1 ∧
    hasKey (analyze_symptoms envFix wC3).body "error" = true :=
  ⟨rfl, rfl, rfl, rfl⟩

/-! ## C4: authentication failures -/

/-- The body of the HF-branch auth-error response (lines 515-529). -/
def authBodyHF (st : Nat) : JVal :=
  .obj [
    ("error", .str ("LLM provider authentication failed. " ++
      "Backend is not configured correctly.")),
    ("code", .str "LLM_AUTH_ERROR"),
    ("llm_status", .num 401),
    ("llm_message", .str (permError_msg st)),
    ("conditions", .arr []),
    ("recommendations", .str ("Verify HF_API_KEY and HF_MODEL_NAME are " ++
      "set and the token can access the model.")),
    ("disclaimer", .str "Please contact the administrator")]

/-- The body of the Gemini-branch auth-error response (lines 716-729). -/
def authBodyGem (st : Nat) (pm : JVal × JVal) : JVal :=
  .obj [
    ("error", .str ("LLM provider authentication failed. " ++
      "Backend is not configured correctly.")),
    ("code", .str "LLM_AUTH_ERROR"),
    ("llm_status", .num (st : ℚ)),
    ("llm_provider_status", pm.1),
    ("llm_message", pm.2),
    ("conditions", .arr []),
    ("recommendations", .str ("Verify GEMINI_API_KEY is set correctly " ++
      "in the backend environment.")),
    ("disclaimer", .str "Please contact the administrator")]

/-- The `code` field of a JSON object. -/
def bodyCode (v : JVal) : Option JVal :=
  match v with
  | .obj fs => objGet fs "code"
  | _ => none

/-- A first response of 401/403 ends the resilience loop at once: the
`PermissionError` escapes after exactly one outbound call and no sleep. -/
lemma post_hf_first_auth (env : Env) (w : HfWorld)
    (h : (w.resp 0).status = 401 ∨ (w.resp 0).status = 403) :
    post_hf_with_resilience env w = ⟨.error (w.resp 0).status, 1, []⟩ := by
  have hstep : hfStep w (hfMr env) (hfMinB env) (hfMaxB env) (hfWm env) 0 0
      = .done ⟨.error (w.resp 0).status, 1, []⟩ := by
    simp only [hfStep]
    rw [if_pos h]
  obtain ⟨F, hF⟩ : ∃ F, hfCallBound (hfMr env) (hfWm env) = F + 1 :=
    ⟨hfMr env + (hfWm env + 399) / 400 + 1, by unfold hfCallBound; omega⟩
  have hsome : hfStepLoop w (hfMr env) (hfMinB env) (hfMaxB env) (hfWm env)
      (hfCallBound (hfMr env) (hfWm env)) 0 0
      = some ⟨.error (w.resp 0).status, 1, []⟩ := by
    rw [hF, hfStepLoop, hstep]
  unfold post_hf_with_resilience
  simp [hsome]

/-- A first-candidate response that is neither transient nor 404 stops the
whole target-fallback driver after one outbound call. -/
lemma try_targets_first_stop (g : GOracle) (env : Env)
    (models baseUrls : List String) (m0 : String) (mrest : List String)
    (b0 : String) (brest : List String)
    (hm : unique_nonempty_strings models = m0 :: mrest)
    (hb : gemBaseCands env baseUrls = b0 :: brest)
    (hnt : gTransient (g 0 (some m0) (some b0)).status = false)
    (h404 : (g 0 (some m0) (some b0)).status ≠ 404) :
    post_gemini_try_targets g env 0 models baseUrls
      = (g 0 (some m0) (some b0), m0, b0, 1, [(some m0, some b0)]) := by
  rw [try_targets_eq g env 0 models baseUrls b0 brest hb, goBases_eq]
  have hs : post_gemini_try_models_with_base g env 0 models b0
      = (g 0 (some m0) (some b0), m0, 1, [(some m0, some b0)]) := by
    unfold post_gemini_try_models_with_base
    rw [hm]
    show goModels g b0 0 m0 mrest
      = (g 0 (some m0) (some b0), m0, 1, [(some m0, some b0)])
    rw [goModels_eq, with_retries_not_transient g 0 (some m0) (some b0) hnt]
    simp [h404]
  simp [hs, h404]

/-- A well-formed, uncached request reaches the configured provider
branch. -/
lemma analyzeCore_branch (env : Env) (w : World) (fs : List (String × JVal))
    (s : String)
    (hbody : w.body = some (.obj fs))
    (hsym : objGet fs "symptoms" = some (.str s))
    (hne : pyStrip s ≠ "")
    (hseed : try_get_seeded_result env w.cache w.jsonParse (pyStrip s)
      = none) :
    analyzeCore env w =
      (if hfConfigured env then ((hfBranch env w).1, (hfBranch env w).2, [])
       else ((geminiBranch env w).1, 0, (geminiBranch env w).2)) := by
  unfold analyzeCore
  rw [hbody]
  simp only [hsym, Option.getD_some]
  rw [if_neg hne, hseed]

/-- C4: for every well-formed uncached request whose provider answers 401 on
the very first outbound call, the handler makes exactly that one call — no
retry, no further candidate — and answers 500 with `code` equal to
"LLM_AUTH_ERROR"; this holds on the Hugging Face branch and on the Gemini
branch alike. -/
theorem C4_first_response_401_auth_error :
    ∀ (env : Env) (w : World) (fs : List (String × JVal)) (s : String),
      w.body = some (.obj fs) →
      objGet fs "symptoms" = some (.str s) →
      pyStrip s ≠ "" →
      try_get_seeded_result env w.cache w.jsonParse (pyStrip s) = none →
      (hfConfigured env = true → (w.hf.resp 0).status = 401 →
        (analyze_symptoms env w).status = 500 ∧
        bodyCode (analyze_symptoms env w).body
          = some (.str "LLM_AUTH_ERROR") ∧
        (analyze_symptoms env w).hfCalls = 1 ∧
        (analyze_symptoms env w).gemTrace = []) ∧
      (hfConfigured env = false → geminiConfigured env = true →
        (w.gem 0 (some (gemFirstModel env)) (some (gemFirstBase env))).status
            = 401 →
        (analyze_symptoms env w).status = 500 ∧
        bodyCode (analyze_symptoms env w).body
          = some (.str "LLM_AUTH_ERROR") ∧
        (analyze_symptoms env w).hfCalls = 0 ∧
        (analyze_symptoms env w).gemTrace
          = [(some (gemFirstModel env), some (gemFirstBase env))]) := by
  intro env w fs s hbody hsym hne hseed
  constructor
  · intro hhf h401
    have hcore : analyzeCore env w
        = ((hfBranch env w).1, (hfBranch env w).2, []) := by
      rw [analyzeCore_branch env w fs s hbody hsym hne hseed, if_pos hhf]
    have hres : post_hf_with_resilience env w.hf
        = ⟨.error (w.hf.resp 0).status, 1, []⟩ :=
      post_hf_first_auth env w.hf (Or.inl h401)
    have hbr1 : (hfBranch env w).1
        = .ok (500, authBodyHF (w.hf.resp 0).status) := by
      simp [hfBranch, hres, authBodyHF]
    have hbr2 : (hfBranch env w).2 = 1 := by
      simp [hfBranch, hres]
    have hcore2 : analyzeCore env w
        = (.ok (500, authBodyHF (w.hf.resp 0).status), 1, []) := by
      rw [hcore, hbr1, hbr2]
    have hfin : analyze_symptoms env w
        = ⟨500, authBodyHF (w.hf.resp 0).status, 1, []⟩ := by
      simp [analyze_symptoms, hcore2]
    rw [hfin]
    exact ⟨rfl, rfl, rfl, rfl⟩
  · intro hhf hgem h401
    have hcore : analyzeCore env w
        = ((geminiBranch env w).1, 0, (geminiBranch env w).2) := by
      rw [analyzeCore_branch env w fs s hbody hsym hne hseed,
        if_neg (by simp [hhf])]
    rcases hm : unique_nonempty_strings (gemModelsArg env) with _ | ⟨m0, mrest⟩
    · exact absurd hm (uniq_gemModelsArg_ne_nil env)
    rcases hbcands : gemBaseCands env (gemBasesArg env) with _ | ⟨b0, brest⟩
    · exact absurd hbcands (gemBaseCands_ne_nil env (gemBasesArg env))
    have hm0 : gemFirstModel env = m0 := by
      rw [gemFirstModel, hm]
      rfl
    have hb0 : gemFirstBase env = b0 := by
      rw [gemFirstBase, hbcands]
      rfl
    rw [hm0, hb0] at h401
    have hnt : gTransient (w.gem 0 (some m0) (some b0)).status = false := by
      rw [h401]
      decide
    have h404 : (w.gem 0 (some m0) (some b0)).status ≠ 404 := by
      rw [h401]
      decide
    have hstop := try_targets_first_stop w.gem env (gemModelsArg env)
      (gemBasesArg env) m0 mrest b0 brest hm hbcands hnt h404
    have hgb : geminiBranch env w
        = (.ok (500, authBodyGem (w.gem 0 (some m0) (some b0)).status
            (gemExtractProviderErr (w.gem 0 (some m0) (some b0)).jsonBody)),
          [(some m0, some b0)]) := by
      unfold geminiBranch
      rw [if_neg (by simp [hgem])]
      simp only [hstop]
      simp [h401, authBodyGem]
    have hcore2 : analyzeCore env w
        = (.ok (500, authBodyGem (w.gem 0 (some m0) (some b0)).status
            (gemExtractProviderErr (w.gem 0 (some m0) (some b0)).jsonBody)),
          0, [(some m0, some b0)]) := by
      rw [hcore, hgb]
    have hfin : analyze_symptoms env w
        = ⟨500, authBodyGem (w.gem 0 (some m0) (some b0)).status
            (gemExtractProviderErr (w.gem 0 (some m0) (some b0)).jsonBody),
          0, [(some m0, some b0)]⟩ := by
      simp [analyze_symptoms, hcore2]
    rw [hm0, hb0, hfin]
    exact ⟨rfl, rfl, rfl, rfl⟩

/-- The request world of the C4 witness: valid symptoms body, every HF call
answering 401. -/
def wC4 : World := worldOf (some bodyFever) (hfWorldConst resp401)

/-- C4 (instance): the theorem applied at a concrete 401-answering world. -/
theorem C4_witness :
    (analyze_symptoms envFix wC4).status = 500 ∧
    bodyCode (analyze_symptoms envFix wC4).body
      = some (.str "LLM_AUTH_ERROR") ∧
    (analyze_symptoms envFix wC4).hfCalls = 1 ∧
    (analyze_symptoms envFix wC4).gemTrace = [] :=
  (C4_first_response_401_auth_error envFix wC4 [("symptoms", .str " fever ")]
    " fever " rfl rfl (by decide) rfl).1 (by decide) rfl

/-! ## C9: client-input validation -/

/-- Is a JSON value an object? -/
def jIsObj (v : JVal) : Bool :=
  match v with
  | .obj _ => true
  | _ => false

/-- Is a JSON value a string? -/
def jIsStr (v : JVal) : Bool :=
  match v with
  | .str _ => true
  | _ => false

/-- Is the `symptoms` field, as `data.get("symptoms", "")` reads it, blank
after trimming (or not even a string)? -/
def symptomsBlank (fs : List (String × JVal)) : Bool :=
  match (objGet fs "symptoms").getD (.str "") with
  | .str s => pyStrip s == ""
  | _ => true

/-- C9 (amended): in the healthcare-backend handler, a missing body, a
non-object body, or a `symptoms` field missing, non-string or blank after
trimming yields 400 with an `error` field and zero outbound calls.  In the
legacy root handler, a falsy body or a blank string `symptoms` likewise
yields 400 with zero calls — but a truthy non-object body or a non-string
`symptoms` value raises and yields 500, not 400 (still with an `error`
field and zero calls). -/
theorem C9_malformed_requests :
    (∀ (env : Env) (w : World), w.body = none →
      analyze_symptoms env w
        = ⟨400, .obj [("error", .str "Invalid or missing JSON body")],
            0, []⟩) ∧
    (∀ (env : Env) (w : World) (b : JVal), w.body = some b →
      jIsObj b = false →
      analyze_symptoms env w
        = ⟨400, .obj [("error", .str "Invalid or missing JSON body")],
            0, []⟩) ∧
    (∀ (env : Env) (w : World) (fs : List (String × JVal)),
      w.body = some (.obj fs) → symptomsBlank fs = true →
      analyze_symptoms env w
        = ⟨400, .obj [("error", .str "No symptoms provided")], 0, []⟩) ∧
    (∀ (k : Option String) (lw : LegacyWorld), lw.body = .ok none →
      legacy_analyze k lw
        = (400, .obj [("error", .str "No JSON data received")], 0)) ∧
    (∀ (k : Option String) (lw : LegacyWorld) (b : JVal),
      lw.body = .ok (some b) → jFalsy b = true →
      legacy_analyze k lw
        = (400, .obj [("error", .str "No JSON data received")], 0)) ∧
    (∀ (k : Option String) (lw : LegacyWorld) (fs : List (String × JVal))
       (s : String),
      lw.body = .ok (some (.obj fs)) → jFalsy (.obj fs) = false →
      (objGet fs "symptoms").getD (.str "") = .str s → pyStrip s = "" →
      legacy_analyze k lw
        = (400, .obj [("error", .str "No symptoms provided")], 0)) ∧
    (∀ (k : Option String) (lw : LegacyWorld) (fs : List (String × JVal))
       (v : JVal),
      lw.body = .ok (some (.obj fs)) → jFalsy (.obj fs) = false →
      (objGet fs "symptoms").getD (.str "") = v → jIsStr v = false →
      legacy_analyze k lw
        = (500, legacy_outer "symptoms value has no attribute strip", 0)) ∧
    (∀ (k : Option String) (lw : LegacyWorld) (b : JVal),
      lw.body = .ok (some b) → jFalsy b = false → jIsObj b = false →
      legacy_analyze k lw
        = (500, legacy_outer "request body has no attribute get", 0)) := by
  refine ⟨?_, ?_, ?_, ?_, ?_, ?_, ?_, ?_⟩
  · intro env w hbody
    simp [analyze_symptoms, analyzeCore, hbody]
  · intro env w b hbody hobj
    rcases b with _ | bb | q | st | l | fs
    · simp [analyze_symptoms, analyzeCore, hbody]
    · simp [analyze_symptoms, analyzeCore, hbody]
    · simp [analyze_symptoms, analyzeCore, hbody]
    · simp [analyze_symptoms, analyzeCore, hbody]
    · simp [analyze_symptoms, analyzeCore, hbody]
    · simp [jIsObj] at hobj
  · intro env w fs hbody hblank
    rcases hv : (objGet fs "symptoms").getD (.str "") with _ | bb | q | st | l | gfs
    · simp [analyze_symptoms, analyzeCore, hbody, hv]
    · simp [analyze_symptoms, analyzeCore, hbody, hv]
    · simp [analyze_symptoms, analyzeCore, hbody, hv]
    · simp [symptomsBlank, hv] at hblank
      simp [analyze_symptoms, analyzeCore, hbody, hv, hblank]
    · simp [analyze_symptoms, analyzeCore, hbody, hv]
    · simp [analyze_symptoms, analyzeCore, hbody, hv]
  · intro k lw hbody
    simp [legacy_analyze, hbody, jFalsy]
  · intro k lw b hbody hfalsy
    simp [legacy_analyze, hbody, hfalsy]
  · intro k lw fs s hbody hfalsy hsym hblank
    simp [legacy_analyze, hbody, hfalsy, hsym, hblank]
  · intro k lw fs v hbody hfalsy hsym hnstr
    rcases v with _ | bb | q | st | l | gfs
    · simp [legacy_analyze, hbody, hfalsy, hsym]
    · simp [legacy_analyze, hbody, hfalsy, hsym]
    · simp [legacy_analyze, hbody, hfalsy, hsym]
    · simp [jIsStr] at hnstr
    · simp [legacy_analyze, hbody, hfalsy, hsym]
    · simp [legacy_analyze, hbody, hfalsy, hsym]
  · intro k lw b hbody hfalsy hnobj
    rcases b with _ | bb | q | st | l | fs
    · simp [jFalsy] at hfalsy
    · simp [legacy_analyze, hbody, hfalsy]
    · simp [legacy_analyze, hbody, hfalsy]
    · simp [legacy_analyze, hbody, hfalsy]
    · simp [legacy_analyze, hbody, hfalsy]
    · simp [jIsObj] at hnobj

/-- The legacy world of the C9 counterexample: a well-formed JSON body whose
`symptoms` value is a number. -/
def lwBadSymptoms : LegacyWorld where
  body := .ok (some (.obj [("symptoms", .num 5)]))
  gemOne := ⟨200, none⟩
  jsonParse := fun _ => none

/-- C9 (counterexample): the legacy handler answers 500, not 400, to a JSON
object whose `symptoms` value is not a string (here a number): `.strip()`
raises and the outer handler turns it into a 500. -/
theorem C9_counterexample_legacy_non_string_symptoms :
    (legacy_analyze (some "g") lwBadSymptoms).1 = 500 ∧
    (legacy_analyze (some "g") lwBadSymptoms).2.2 = 0 ∧
    hasKey (legacy_analyze (some "g") lwBadSymptoms).2.1 "error" = true :=
  ⟨rfl, rfl, rfl⟩


/-! ## C1: response shapes -/

/-- Every `.ok` outcome of the HF branch is a 200, or a 500/503 whose body
has the weak three-field shape. -/
lemma hfBranch_shape (env : Env) (w : World) (st : Nat) (b : JVal)
    (h : (hfBranch env w).1 = .ok (st, b)) :
    st = 200 ∨ ((st = 500 ∨ st = 503) ∧ hasWeakShape b = true) := by
  rcases hres : (post_hf_with_resilience env w.hf).outcome with st0 | resp
  · simp only [hfBranch, hres] at h
    simp at h
    obtain ⟨hst, hb⟩ := h
    exact Or.inr ⟨Or.inl hst.symm, by rw [← hb]; rfl⟩
  · simp only [hfBranch, hres] at h
    split_ifs at h
    all_goals try split at h
    all_goals try split at h
    all_goals try split at h
    all_goals simp at h
    all_goals obtain ⟨hst, hb⟩ := h
    all_goals first
    | exact Or.inl hst.symm
    | exact Or.inr ⟨by omega, by rw [← hb]; rfl⟩

/-- Every `.ok` outcome of the Gemini branch is a 200, or a 500/503 whose
body has the weak three-field shape. -/
lemma geminiBranch_shape (env : Env) (w : World) (st : Nat) (b : JVal)
    (h : (geminiBranch env w).1 = .ok (st, b)) :
    st = 200 ∨ ((st = 500 ∨ st = 503) ∧ hasWeakShape b = true) := by
  simp only [geminiBranch] at h
  obtain ⟨s, hs⟩ : ∃ s, post_gemini_try_targets w.gem env 0 (gemModelsArg env)
      (gemBasesArg env) = s := ⟨_, rfl⟩
  rw [hs] at h
  obtain ⟨resp, m2, b2, k2, tr⟩ := s
  split_ifs at h
  all_goals try split at h
  all_goals try split at h
  all_goals simp at h
  all_goals obtain ⟨hst, hb⟩ := h
  all_goals first
  | exact Or.inl hst.symm
  | exact Or.inr ⟨by omega, by rw [← hb]; rfl⟩

/-- A truthy non-object body yields the invalid-body 400. -/
lemma analyze_invalid_body (env : Env) (w : World) (b : JVal)
    (hbody : w.body = some b) (hobj : jIsObj b = false) :
    analyze_symptoms env w
      = ⟨400, .obj [("error", .str "Invalid or missing JSON body")],
          0, []⟩ := by
  rcases b with _ | bb | q | st | l | fs
  · simp [analyze_symptoms, analyzeCore, hbody]
  · simp [analyze_symptoms, analyzeCore, hbody]
  · simp [analyze_symptoms, analyzeCore, hbody]
  · simp [analyze_symptoms, analyzeCore, hbody]
  · simp [analyze_symptoms, analyzeCore, hbody]
  · simp [jIsObj] at hobj

/-- Every healthcare-backend response is a 400 carrying one of the two
single-field error bodies, a 200, or a 500/503 whose body has the weak
shape. -/
lemma analyze_master (env : Env) (w : World) :
    ((analyze_symptoms env w).status = 400 ∧
      ((analyze_symptoms env w).body
          = .obj [("error", .str "Invalid or missing JSON body")] ∨
       (analyze_symptoms env w).body
          = .obj [("error", .str "No symptoms provided")])) ∨
    (analyze_symptoms env w).status = 200 ∨
    (((analyze_symptoms env w).status = 500 ∨
      (analyze_symptoms env w).status = 503) ∧
      hasWeakShape (analyze_symptoms env w).body = true) := by
  rcases hbody : w.body with _ | b
  · left
    have hA : analyze_symptoms env w
        = ⟨400, .obj [("error", .str "Invalid or missing JSON body")],
            0, []⟩ := by
      simp [analyze_symptoms, analyzeCore, hbody]
    rw [hA]
    exact ⟨rfl, Or.inl rfl⟩
  · by_cases hobj : jIsObj b = true
    · rcases b with _ | bb | q | sb | l | fs
      all_goals try simp [jIsObj] at hobj
      rcases hv : (objGet fs "symptoms").getD (.str "") with _ | bb | q | s | l | gfs
      · left
        have hA : analyze_symptoms env w
            = ⟨400, .obj [("error", .str "No symptoms provided")], 0, []⟩ := by
          simp [analyze_symptoms, analyzeCore, hbody, hv]
        rw [hA]
        exact ⟨rfl, Or.inr rfl⟩
      · left
        have hA : analyze_symptoms env w
            = ⟨400, .obj [("error", .str "No symptoms provided")], 0, []⟩ := by
          simp [analyze_symptoms, analyzeCore, hbody, hv]
        rw [hA]
        exact ⟨rfl, Or.inr rfl⟩
      · left
        have hA : analyze_symptoms env w
            = ⟨400, .obj [("error", .str "No symptoms provided")], 0, []⟩ := by
          simp [analyze_symptoms, analyzeCore, hbody, hv]
        rw [hA]
        exact ⟨rfl, Or.inr rfl⟩
      ·
        by_cases hbl : pyStrip s = ""
        · left
          have hA : analyze_symptoms env w
              = ⟨400, .obj [("error", .str "No symptoms provided")],
                  0, []⟩ := by
            simp [analyze_symptoms, analyzeCore, hbody, hv, hbl]
          rw [hA]
          exact ⟨rfl, Or.inr rfl⟩
        · rcases hseed : try_get_seeded_result env w.cache w.jsonParse
              (pyStrip s) with _ | v
          · have hcore : analyzeCore env w
                = (if hfConfigured env then
                    ((hfBranch env w).1, (hfBranch env w).2, [])
                  else ((geminiBranch env w).1, 0, (geminiBranch env w).2)) := by
              unfold analyzeCore
              rw [hbody]
              simp only [hv]
              rw [if_neg hbl, hseed]
            by_cases hhf : hfConfigured env = true
            · have hcore2 : analyzeCore env w
                  = ((hfBranch env w).1, (hfBranch env w).2, []) := by
                rw [hcore, if_pos hhf]
              rcases hbr : (hfBranch env w).1 with m | p
              · right
                right
                have hA : analyze_symptoms env w = ⟨500,
                    .obj [("error", .str ("Analysis failed: " ++ m)),
                      ("conditions", .arr []),
                      ("recommendations", .str "Please try again later"),
                      ("disclaimer", .str "Service temporarily unavailable")],
                    (hfBranch env w).2, []⟩ := by
                  have h2 : analyzeCore env w
                      = (.error m, (hfBranch env w).2, []) := by
                    rw [hcore2, hbr]
                  simp [analyze_symptoms, h2]
                rw [hA]
                exact ⟨Or.inl rfl, rfl⟩
              · obtain ⟨st0, b0⟩ := p
                have hA : analyze_symptoms env w
                    = ⟨st0, b0, (hfBranch env w).2, []⟩ := by
                  have h2 : analyzeCore env w
                      = (.ok (st0, b0), (hfBranch env w).2, []) := by
                    rw [hcore2, hbr]
                  simp [analyze_symptoms, h2]
                rcases hfBranch_shape env w st0 b0 hbr with h200 | ⟨h5, hsh⟩
                · right
                  left
                  rw [hA]
                  exact h200
                · right
                  right
                  rw [hA]
                  exact ⟨h5, hsh⟩
            · simp only [Bool.not_eq_true] at hhf
              have hcore2 : analyzeCore env w
                  = ((geminiBranch env w).1, 0, (geminiBranch env w).2) := by
                rw [hcore, if_neg (by simp [hhf])]
              rcases hbr : (geminiBranch env w).1 with m | p
              · right
                right
                have hA : analyze_symptoms env w = ⟨500,
                    .obj [("error", .str ("Analysis failed: " ++ m)),
                      ("conditions", .arr []),
                      ("recommendations", .str "Please try again later"),
                      ("disclaimer", .str "Service temporarily unavailable")],
                    0, (geminiBranch env w).2⟩ := by
                  have h2 : analyzeCore env w
                      = (.error m, 0, (geminiBranch env w).2) := by
                    rw [hcore2, hbr]
                  simp [analyze_symptoms, h2]
                rw [hA]
                exact ⟨Or.inl rfl, rfl⟩
              · obtain ⟨st0, b0⟩ := p
                have hA : analyze_symptoms env w
                    = ⟨st0, b0, 0, (geminiBranch env w).2⟩ := by
                  have h2 : analyzeCore env w
                      = (.ok (st0, b0), 0, (geminiBranch env w).2) := by
                    rw [hcore2, hbr]
                  simp [analyze_symptoms, h2]
                rcases geminiBranch_shape env w st0 b0 hbr with h200 | ⟨h5, hsh⟩
                · right
                  left
                  rw [hA]
                  exact h200
                · right
                  right
                  rw [hA]
                  exact ⟨h5, hsh⟩
          · right
            left
            have h2 : analyzeCore env w = (.ok (200, v), 0, []) := by
              unfold analyzeCore
              rw [hbody]
              simp only [hv]
              rw [if_neg hbl, hseed]
            simp [analyze_symptoms, h2]
      · left
        have hA : analyze_symptoms env w
            = ⟨400, .obj [("error", .str "No symptoms provided")], 0, []⟩ := by
          simp [analyze_symptoms, analyzeCore, hbody, hv]
        rw [hA]
        exact ⟨rfl, Or.inr rfl⟩
      · left
        have hA : analyze_symptoms env w
            = ⟨400, .obj [("error", .str "No symptoms provided")], 0, []⟩ := by
          simp [analyze_symptoms, analyzeCore, hbody, hv]
        rw [hA]
        exact ⟨rfl, Or.inr rfl⟩
    · left
      simp only [Bool.not_eq_true] at hobj
      rw [analyze_invalid_body env w b hbody hobj]
      exact ⟨rfl, Or.inl rfl⟩

/-- Every legacy-handler response is a 400 carrying one of the two
single-field error bodies, a 200, or a 500 whose body has the weak
shape. -/
lemma legacy_master (k : Option String) (lw : LegacyWorld) :
    ((legacy_analyze k lw).1 = 400 ∧
      ((legacy_analyze k lw).2.1
          = .obj [("error", .str "No JSON data received")] ∨
       (legacy_analyze k lw).2.1
          = .obj [("error", .str "No symptoms provided")])) ∨
    (legacy_analyze k lw).1 = 200 ∨
    ((legacy_analyze k lw).1 = 500 ∧
      hasWeakShape (legacy_analyze k lw).2.1 = true) := by
  rcases hbody : lw.body with e | bodyOpt
  · right
    right
    have hA : legacy_analyze k lw
        = (500, legacy_outer "request body is not valid JSON", 0) := by
      simp [legacy_analyze, hbody]
    rw [hA]
    exact ⟨rfl, rfl⟩
  · rcases bodyOpt with _ | b
    · left
      have hA : legacy_analyze k lw
          = (400, .obj [("error", .str "No JSON data received")], 0) := by
        simp [legacy_analyze, hbody, jFalsy]
      rw [hA]
      exact ⟨rfl, Or.inl rfl⟩
    · by_cases hfal : jFalsy b = true
      · left
        have hA : legacy_analyze k lw
            = (400, .obj [("error", .str "No JSON data received")], 0) := by
          simp [legacy_analyze, hbody, hfal]
        rw [hA]
        exact ⟨rfl, Or.inl rfl⟩
      · simp only [Bool.not_eq_true] at hfal
        rcases b with _ | bb | q | sb | l | fs
        · simp [jFalsy] at hfal
        · right
          right
          have hA : legacy_analyze k lw
              = (500, legacy_outer "request body has no attribute get", 0) := by
            simp [legacy_analyze, hbody, hfal]
          rw [hA]
          exact ⟨rfl, rfl⟩
        · right
          right
          have hA : legacy_analyze k lw
              = (500, legacy_outer "request body has no attribute get", 0) := by
            simp [legacy_analyze, hbody, hfal]
          rw [hA]
          exact ⟨rfl, rfl⟩
        · right
          right
          have hA : legacy_analyze k lw
              = (500, legacy_outer "request body has no attribute get", 0) := by
            simp [legacy_analyze, hbody, hfal]
          rw [hA]
          exact ⟨rfl, rfl⟩
        · right
          right
          have hA : legacy_analyze k lw
              = (500, legacy_outer "request body has no attribute get", 0) := by
            simp [legacy_analyze, hbody, hfal]
          rw [hA]
          exact ⟨rfl, rfl⟩
        · rcases hv : (objGet fs "symptoms").getD (.str "")
            with _ | bb | q | s | l | gfs
          · right
            right
            have hA : legacy_analyze k lw = (500,
                legacy_outer "symptoms value has no attribute strip", 0) := by
              simp [legacy_analyze, hbody, hfal, hv]
            rw [hA]
            exact ⟨rfl, rfl⟩
          · right
            right
            have hA : legacy_analyze k lw = (500,
                legacy_outer "symptoms value has no attribute strip", 0) := by
              simp [legacy_analyze, hbody, hfal, hv]
            rw [hA]
            exact ⟨rfl, rfl⟩
          · right
            right
            have hA : legacy_analyze k lw = (500,
                legacy_outer "symptoms value has no attribute strip", 0) := by
              simp [legacy_analyze, hbody, hfal, hv]
            rw [hA]
            exact ⟨rfl, rfl⟩
          · by_cases hbl : pyStrip s = ""
            · left
              have hA : legacy_analyze k lw
                  = (400, .obj [("error", .str "No symptoms provided")], 0) := by
                simp [legacy_analyze, hbody, hfal, hv, hbl]
              rw [hA]
              exact ⟨rfl, Or.inr rfl⟩
            · by_cases hkey : (match k with
                  | some kk => kk == ""
                  | none => true) = true
              · right
                right
                have hA : legacy_analyze k lw = (500,
                    .obj [("error", .str "Gemini API key not configured"),
                      ("conditions", .arr []),
                      ("recommendations", .str "Service configuration error"),
                      ("disclaimer", .str "Please contact administrator")],
                    0) := by
                  simp [legacy_analyze, hbody, hfal, hv, hbl, hkey]
                rw [hA]
                exact ⟨rfl, rfl⟩
              · simp only [Bool.not_eq_true] at hkey
                by_cases h200 : lw.gemOne.status = 200
                · rcases hjb : lw.gemOne.jsonBody with _ | j
                  · right
                    right
                    have hA : legacy_analyze k lw = (500,
                        legacy_outer "response body is not valid JSON", 1) := by
                      simp [legacy_analyze, hbody, hfal, hv, hbl, hkey,
                        h200, hjb]
                    rw [hA]
                    exact ⟨rfl, rfl⟩
                  · rcases hex : legacy_extract j with _ | text
                    · right
                      right
                      have hA : legacy_analyze k lw = (500,
                          legacy_outer "unexpected response shape", 1) := by
                        simp [legacy_analyze, hbody, hfal, hv, hbl, hkey,
                          h200, hjb, hex]
                      rw [hA]
                      exact ⟨rfl, rfl⟩
                    · right
                      left
                      have hA : legacy_analyze k lw = (200,
                          gemini_parse lw.jsonParse legacy_canned text, 1) := by
                        simp [legacy_analyze, hbody, hfal, hv, hbl, hkey,
                          h200, hjb, hex]
                      rw [hA]
                · right
                  right
                  have hA : legacy_analyze k lw = (500,
                      .obj [("error",
                        .str ("Gemini API error: " ++
                          toString lw.gemOne.status)),
                        ("conditions", .arr []),
                        ("recommendations",
                         .str "AI service temporarily unavailable"),
                        ("disclaimer", .str "Please try again later")],
                      1) := by
                    simp [legacy_analyze, hbody, hfal, hv, hbl, hkey, h200]
                  rw [hA]
                  exact ⟨rfl, rfl⟩
          · right
            right
            have hA : legacy_analyze k lw = (500,
                legacy_outer "symptoms value has no attribute strip", 0) := by
              simp [legacy_analyze, hbody, hfal, hv]
            rw [hA]
            exact ⟨rfl, rfl⟩
          · right
            right
            have hA : legacy_analyze k lw = (500,
                legacy_outer "symptoms value has no attribute strip", 0) := by
              simp [legacy_analyze, hbody, hfal, hv]
            rw [hA]
            exact ⟨rfl, rfl⟩

/-- C1 (amended): every 500/503 body of both handlers has the three
AnalysisResult fields (`conditions` a list, `recommendations` and
`disclaimer` strings); cache-hit 200 bodies and both canned results have
them too; but the 400 client-input-error bodies carry ONLY an `error`
field, not the three, and a 200 body parsed from model output is returned
as-is with no shape guarantee. -/
theorem C1_error_bodies_shaped_400_not :
    (∀ (env : Env) (w : World), (analyze_symptoms env w).status = 400 →
      hasKey (analyze_symptoms env w).body "error" = true ∧
      hasThreeKeys (analyze_symptoms env w).body = false) ∧
    (∀ (env : Env) (w : World),
      (analyze_symptoms env w).status = 500 ∨
        (analyze_symptoms env w).status = 503 →
      hasWeakShape (analyze_symptoms env w).body = true) ∧
    (∀ (k : Option String) (lw : LegacyWorld),
      (legacy_analyze k lw).1 = 400 →
      hasKey (legacy_analyze k lw).2.1 "error" = true ∧
      hasThreeKeys (legacy_analyze k lw).2.1 = false) ∧
    (∀ (k : Option String) (lw : LegacyWorld),
      (legacy_analyze k lw).1 = 500 →
      hasWeakShape (legacy_analyze k lw).2.1 = true) ∧
    (∀ (env : Env) (cw : CacheWorld) (jp : String → Option JVal) (s : String)
       (v : JVal), try_get_seeded_result env cw jp s = some v →
      hasWeakShape v = true) ∧
    hasWeakShape canned_result = true ∧
    hasWeakShape legacy_canned = true := by
  refine ⟨?_, ?_, ?_, ?_, seeded_some_shape, rfl, rfl⟩
  · intro env w h400
    rcases analyze_master env w with ⟨hst, hb⟩ | h200 | ⟨h5, hsh⟩
    · rcases hb with hb | hb <;> rw [hb] <;> exact ⟨rfl, rfl⟩
    · omega
    · rcases h5 with h5 | h5 <;> omega
  · intro env w h5x
    rcases analyze_master env w with ⟨hst, hb⟩ | h200 | ⟨h5, hsh⟩
    · rcases h5x with h | h <;> omega
    · rcases h5x with h | h <;> omega
    · exact hsh
  · intro k lw h400
    rcases legacy_master k lw with ⟨hst, hb⟩ | h200 | ⟨h5, hsh⟩
    · rcases hb with hb | hb <;> rw [hb] <;> exact ⟨rfl, rfl⟩
    · omega
    · omega
  · intro k lw h500
    rcases legacy_master k lw with ⟨hst, hb⟩ | h200 | ⟨h5, hsh⟩
    · omega
    · omega
    · exact hsh

/-- The request world of the C1 counterexample: no JSON body at all. -/
def wC1 : World := worldOf none (hfWorldConst resp200Empty)

/-- C1 (counterexample): the 400 returned for a missing body carries only
an `error` field — `conditions`, `recommendations` and `disclaimer` are all
absent. -/
theorem C1_counterexample_400_lacks_three_fields :
    (analyze_symptoms envFix wC1).status = 400 ∧
    hasKey (analyze_symptoms envFix wC1).body "error" = true ∧
    hasThreeKeys (analyze_symptoms envFix wC1).body = false :=
  ⟨rfl, rfl, rfl⟩

end SymptomChecker
